import Mathlib

/-! Spdylay stream object.

A shallow embedding of `lib/spdylay_stream.c` and of the enumerations of
`lib/includes/spdylay/spdylay.h`, followed by the properties of the stream
object that the specification states.

Conventions of the embedding.

* C integers are `Int` (signed) or `Nat` (unsigned); an argument of a C
  function lies in the range of its C type, and the theorems hold for every
  `Int` or `Nat`.  The functions of `spdylay_stream.c` copy integers, compare
  them and OR shut flags (values below 4) together; the only arithmetic is
  `pushed_streams_capacity*2`, `capacity*sizeof(uint32_t)` and
  `pushed_streams_length++` on `size_t`.  These are the cell count and byte
  size of a heap block that exists or is being requested, and the live block
  of `pushed_streams_capacity` cells is an object of at most `PTRDIFF_MAX`
  bytes, so twice its size is below `SIZE_MAX`: the arithmetic is exact and is
  written in `Nat` without a modulus.
* A pointer to data the stream does not look into (`void *stream_user_data`,
  `spdylay_outbound_item *deferred_data`) is its address, a `Nat`, with
  `NULL = 0`.
* The pointer `int32_t *pushed_streams` is modelled by what it points to:
  `none` for `NULL`, `some cells` for a heap block whose cells, in index
  order, are `cells`.
* A call whose behaviour is not a return (a failed `assert`, a write outside
  the heap block) yields `none`.
-/

namespace Spdylay

/-! ## Enumerations of `spdylay.h` -/

/-- The enumeration `spdylay_error` (spdylay.h, lines 46-98). -/
inductive spdylay_error where
  | SPDYLAY_ERR_INVALID_ARGUMENT
  | SPDYLAY_ERR_ZLIB
  | SPDYLAY_ERR_UNSUPPORTED_VERSION
  | SPDYLAY_ERR_WOULDBLOCK
  | SPDYLAY_ERR_PROTO
  | SPDYLAY_ERR_INVALID_FRAME
  | SPDYLAY_ERR_EOF
  | SPDYLAY_ERR_DEFERRED
  | SPDYLAY_ERR_STREAM_ID_NOT_AVAILABLE
  | SPDYLAY_ERR_STREAM_CLOSED
  | SPDYLAY_ERR_STREAM_CLOSING
  | SPDYLAY_ERR_STREAM_SHUT_WR
  | SPDYLAY_ERR_INVALID_STREAM_ID
  | SPDYLAY_ERR_INVALID_STREAM_STATE
  | SPDYLAY_ERR_DEFERRED_DATA_EXIST
  | SPDYLAY_ERR_SYN_STREAM_NOT_ALLOWED
  | SPDYLAY_ERR_GOAWAY_ALREADY_SENT
  | SPDYLAY_ERR_FATAL
  | SPDYLAY_ERR_NOMEM
  | SPDYLAY_ERR_CALLBACK_FAILURE
  deriving DecidableEq, Repr

/-- The integer value of each constant of `spdylay_error`. -/
def spdylay_error.val : spdylay_error → Int
  | .SPDYLAY_ERR_INVALID_ARGUMENT => -501
  | .SPDYLAY_ERR_ZLIB => -502
  | .SPDYLAY_ERR_UNSUPPORTED_VERSION => -503
  | .SPDYLAY_ERR_WOULDBLOCK => -504
  | .SPDYLAY_ERR_PROTO => -505
  | .SPDYLAY_ERR_INVALID_FRAME => -506
  | .SPDYLAY_ERR_EOF => -507
  | .SPDYLAY_ERR_DEFERRED => -508
  | .SPDYLAY_ERR_STREAM_ID_NOT_AVAILABLE => -509
  | .SPDYLAY_ERR_STREAM_CLOSED => -510
  | .SPDYLAY_ERR_STREAM_CLOSING => -511
  | .SPDYLAY_ERR_STREAM_SHUT_WR => -512
  | .SPDYLAY_ERR_INVALID_STREAM_ID => -513
  | .SPDYLAY_ERR_INVALID_STREAM_STATE => -514
  | .SPDYLAY_ERR_DEFERRED_DATA_EXIST => -515
  | .SPDYLAY_ERR_SYN_STREAM_NOT_ALLOWED => -516
  | .SPDYLAY_ERR_GOAWAY_ALREADY_SENT => -517
  | .SPDYLAY_ERR_FATAL => -900
  | .SPDYLAY_ERR_NOMEM => -901
  | .SPDYLAY_ERR_CALLBACK_FAILURE => -902

/-- The enumeration `spdylay_frame_type` (spdylay.h, lines 104-116). -/
inductive spdylay_frame_type where
  | SPDYLAY_SYN_STREAM
  | SPDYLAY_SYN_REPLY
  | SPDYLAY_RST_STREAM
  | SPDYLAY_SETTINGS
  | SPDYLAY_NOOP
  | SPDYLAY_PING
  | SPDYLAY_GOAWAY
  | SPDYLAY_HEADERS
  | SPDYLAY_WINDOW_UPDATE
  | SPDYLAY_DATA
  deriving DecidableEq, Repr

/-- The integer value of each constant of `spdylay_frame_type`. -/
def spdylay_frame_type.val : spdylay_frame_type → Int
  | .SPDYLAY_SYN_STREAM => 1
  | .SPDYLAY_SYN_REPLY => 2
  | .SPDYLAY_RST_STREAM => 3
  | .SPDYLAY_SETTINGS => 4
  | .SPDYLAY_NOOP => 5
  | .SPDYLAY_PING => 6
  | .SPDYLAY_GOAWAY => 7
  | .SPDYLAY_HEADERS => 8
  | .SPDYLAY_WINDOW_UPDATE => 9
  | .SPDYLAY_DATA => 100

/-- The constants of `spdylay_frame_type` that are control frame types: all
but the tag `SPDYLAY_DATA`, which the library uses for DATA frames (on the
wire a DATA frame has no type field). -/
def spdylay_frame_type.is_ctrl : spdylay_frame_type → Bool
  | .SPDYLAY_DATA => false
  | _ => true

/-- The enumeration `spdylay_status_code`, the status codes of RST_STREAM
(spdylay.h, lines 158-175).  The last constant is spelt `FRAME_TOO_LARGE` in
the header. -/
inductive spdylay_status_code where
  | SPDYLAY_OK
  | SPDYLAY_PROTOCOL_ERROR
  | SPDYLAY_INVALID_STREAM
  | SPDYLAY_REFUSED_STREAM
  | SPDYLAY_UNSUPPORTED_VERSION
  | SPDYLAY_CANCEL
  | SPDYLAY_INTERNAL_ERROR
  | SPDYLAY_FLOW_CONTROL_ERROR
  | SPDYLAY_STREAM_IN_USE
  | SPDYLAY_STREAM_ALREADY_CLOSED
  | SPDYLAY_INVALID_CREDENTIALS
  | FRAME_TOO_LARGE
  deriving DecidableEq, Repr

/-- The integer value of each constant of `spdylay_status_code`. -/
def spdylay_status_code.val : spdylay_status_code → Int
  | .SPDYLAY_OK => 0
  | .SPDYLAY_PROTOCOL_ERROR => 1
  | .SPDYLAY_INVALID_STREAM => 2
  | .SPDYLAY_REFUSED_STREAM => 3
  | .SPDYLAY_UNSUPPORTED_VERSION => 4
  | .SPDYLAY_CANCEL => 5
  | .SPDYLAY_INTERNAL_ERROR => 6
  | .SPDYLAY_FLOW_CONTROL_ERROR => 7
  | .SPDYLAY_STREAM_IN_USE => 8
  | .SPDYLAY_STREAM_ALREADY_CLOSED => 9
  | .SPDYLAY_INVALID_CREDENTIALS => 10
  | .FRAME_TOO_LARGE => 11

/-- The status codes in the order the specification enumerates them
(section 6, "RST_STREAM status codes: 1..11 as enumerated"). -/
def rst_stream_status_codes : List spdylay_status_code :=
  [.SPDYLAY_PROTOCOL_ERROR, .SPDYLAY_INVALID_STREAM, .SPDYLAY_REFUSED_STREAM,
   .SPDYLAY_UNSUPPORTED_VERSION, .SPDYLAY_CANCEL, .SPDYLAY_INTERNAL_ERROR,
   .SPDYLAY_FLOW_CONTROL_ERROR, .SPDYLAY_STREAM_IN_USE,
   .SPDYLAY_STREAM_ALREADY_CLOSED, .SPDYLAY_INVALID_CREDENTIALS, .FRAME_TOO_LARGE]

/-- The macros `SPDYLAY_PROTO_SPDY2` and `SPDYLAY_PROTO_SPDY3` (spdylay.h, lines
41-44): the protocol versions. -/
def SPDYLAY_PROTO_SPDY2 : Nat := 2

/-- The macro `SPDYLAY_PROTO_SPDY3` (spdylay.h, line 44). -/
def SPDYLAY_PROTO_SPDY3 : Nat := 3

/-- The macro `SPDYLAY_SPDY2_PRI_LOWEST` (spdylay.h, line 184). -/
def SPDYLAY_SPDY2_PRI_LOWEST : Nat := 3

/-- The macro `SPDYLAY_SPDY3_PRI_LOWEST` (spdylay.h, line 185). -/
def SPDYLAY_SPDY3_PRI_LOWEST : Nat := 7

/-- Modelled from the spec: the width in bits of the priority field of
SYN_STREAM, which the frame codec (not among the sources) packs.  Section 4.1
of the specification: "SYN_STREAM priority field width (2 bits v2 / 3 bits
v3)".  No width is given for any other version. -/
def syn_stream_pri_bits (version : Nat) : Option Nat :=
  if version = SPDYLAY_PROTO_SPDY2 then some 2
  else if version = SPDYLAY_PROTO_SPDY3 then some 3
  else none

/-- The enumeration `spdylay_ctrl_flag` (spdylay.h, lines 118-122). -/
inductive spdylay_ctrl_flag where
  | SPDYLAY_CTRL_FLAG_NONE
  | SPDYLAY_CTRL_FLAG_FIN
  | SPDYLAY_CTRL_FLAG_UNIDIRECTIONAL
  deriving DecidableEq, Repr

/-- The integer value of each constant of `spdylay_ctrl_flag`. -/
def spdylay_ctrl_flag.val : spdylay_ctrl_flag → Nat
  | .SPDYLAY_CTRL_FLAG_NONE => 0
  | .SPDYLAY_CTRL_FLAG_FIN => 0x1
  | .SPDYLAY_CTRL_FLAG_UNIDIRECTIONAL => 0x2

/-- The enumeration `spdylay_data_flag` (spdylay.h, lines 124-127). -/
inductive spdylay_data_flag where
  | SPDYLAY_DATA_FLAG_NONE
  | SPDYLAY_DATA_FLAG_FIN
  deriving DecidableEq, Repr

/-- The integer value of each constant of `spdylay_data_flag`. -/
def spdylay_data_flag.val : spdylay_data_flag → Nat
  | .SPDYLAY_DATA_FLAG_NONE => 0
  | .SPDYLAY_DATA_FLAG_FIN => 0x1

/-- The enumeration `spdylay_settings_flag` (spdylay.h, lines 129-132). -/
inductive spdylay_settings_flag where
  | SPDYLAY_FLAG_SETTINGS_NONE
  | SPDYLAY_FLAG_SETTINGS_CLEAR_SETTINGS
  deriving DecidableEq, Repr

/-- The integer value of each constant of `spdylay_settings_flag`. -/
def spdylay_settings_flag.val : spdylay_settings_flag → Nat
  | .SPDYLAY_FLAG_SETTINGS_NONE => 0
  | .SPDYLAY_FLAG_SETTINGS_CLEAR_SETTINGS => 1

/-- The enumeration `spdylay_settings_id_flag` (spdylay.h, lines 134-138). -/
inductive spdylay_settings_id_flag where
  | SPDYLAY_ID_FLAG_SETTINGS_NONE
  | SPDYLAY_ID_FLAG_SETTINGS_PERSIST_VALUE
  | SPDYLAY_ID_FLAG_SETTINGS_PERSISTED
  deriving DecidableEq, Repr

/-- The integer value of each constant of `spdylay_settings_id_flag`. -/
def spdylay_settings_id_flag.val : spdylay_settings_id_flag → Nat
  | .SPDYLAY_ID_FLAG_SETTINGS_NONE => 0
  | .SPDYLAY_ID_FLAG_SETTINGS_PERSIST_VALUE => 1
  | .SPDYLAY_ID_FLAG_SETTINGS_PERSISTED => 2

/-- The enumeration `spdylay_settings_id` (spdylay.h, lines 140-150). -/
inductive spdylay_settings_id where
  | SPDYLAY_SETTINGS_UPLOAD_BANDWIDTH
  | SPDYLAY_SETTINGS_DOWNLOAD_BANDWIDTH
  | SPDYLAY_SETTINGS_ROUND_TRIP_TIME
  | SPDYLAY_SETTINGS_MAX_CONCURRENT_STREAMS
  | SPDYLAY_SETTINGS_CURRENT_CWND
  | SPDYLAY_SETTINGS_DOWNLOAD_RETRANS_RATE
  | SPDYLAY_SETTINGS_INITIAL_WINDOW_SIZE
  | SPDYLAY_SETTINGS_CLIENT_CERTIFICATE_VECTOR_SIZE
  deriving DecidableEq, Repr

/-- The integer value of each constant of `spdylay_settings_id`. -/
def spdylay_settings_id.val : spdylay_settings_id → Int
  | .SPDYLAY_SETTINGS_UPLOAD_BANDWIDTH => 1
  | .SPDYLAY_SETTINGS_DOWNLOAD_BANDWIDTH => 2
  | .SPDYLAY_SETTINGS_ROUND_TRIP_TIME => 3
  | .SPDYLAY_SETTINGS_MAX_CONCURRENT_STREAMS => 4
  | .SPDYLAY_SETTINGS_CURRENT_CWND => 5
  | .SPDYLAY_SETTINGS_DOWNLOAD_RETRANS_RATE => 6
  | .SPDYLAY_SETTINGS_INITIAL_WINDOW_SIZE => 7
  | .SPDYLAY_SETTINGS_CLIENT_CERTIFICATE_VECTOR_SIZE => 8

/-- The macro `SPDYLAY_SETTINGS_MAX` (spdylay.h, line 153): the maximum ID of
`spdylay_settings_id`. -/
def SPDYLAY_SETTINGS_MAX : Int := 8

/-! ## Declarations of `spdylay_stream.h` -/

/-- Modelled from the spec: the enumeration `spdylay_stream_state` is declared
in `spdylay_stream.h`, which is not among the sources.  The specification
(section 3, "Stream states") names the states INITIAL, OPENING, OPENED and
CLOSING. -/
inductive spdylay_stream_state where
  | SPDYLAY_STREAM_INITIAL
  | SPDYLAY_STREAM_OPENING
  | SPDYLAY_STREAM_OPENED
  | SPDYLAY_STREAM_CLOSING
  deriving DecidableEq, Repr

/-- Modelled from the spec: the enumeration `spdylay_shut_flag` is declared in
`spdylay_stream.h`, which is not among the sources.  The specification
(section 3) gives the half-close shut flags as {none, RD, WR, RDWR}. -/
inductive spdylay_shut_flag where
  | SPDYLAY_SHUT_NONE
  | SPDYLAY_SHUT_RD
  | SPDYLAY_SHUT_WR
  | SPDYLAY_SHUT_RDWR
  deriving DecidableEq, Repr

/-- Modelled from the spec: the values of the constants of `spdylay_shut_flag`
(`spdylay_stream.h` is not among the sources).  NONE is 0, RD and WR are the
distinct single bits 0x01 and 0x02, RDWR is their union. -/
def spdylay_shut_flag.val : spdylay_shut_flag → Nat
  | .SPDYLAY_SHUT_NONE => 0
  | .SPDYLAY_SHUT_RD => 0x01
  | .SPDYLAY_SHUT_WR => 0x02
  | .SPDYLAY_SHUT_RDWR => 0x01 ||| 0x02

/-- The null pointer. -/
def NULL : Nat := 0

/-- Modelled from the spec: the structure `spdylay_stream` is declared in
`spdylay_stream.h`, which is not among the sources.  Its members are the ten
that `spdylay_stream_init` assigns, with the types of the parameters or
constants assigned to them; they are the stream attributes of section 3 of the
specification (stream ID, flags, priority, state, shut flags, pushed stream
IDs, deferred DATA item, user cookie).  That section also lists a window size;
no function of `spdylay_stream.c` reads or writes such a member, and this
record is given none.

`pushed_streams` is the heap block the C member points to (`none` for `NULL`).
-/
structure spdylay_stream where
  stream_id : Int
  state : spdylay_stream_state
  flags : Nat
  pri : Nat
  shut_flags : Nat
  pushed_streams : Option (List Int)
  pushed_streams_length : Nat
  pushed_streams_capacity : Nat
  stream_user_data : Nat
  deferred_data : Nat
  deriving DecidableEq, Repr

/-! ## The functions of `spdylay_stream.c` -/

/-- The function `spdylay_stream_init` (spdylay_stream.c, lines 29-44).  The first argument
is the record the C function writes into. -/
def spdylay_stream_init (stream : spdylay_stream) (stream_id : Int)
    (flags : Nat) (pri : Nat) (initial_state : spdylay_stream_state)
    (stream_user_data : Nat) : spdylay_stream :=
  let stream := { stream with stream_id := stream_id }
  let stream := { stream with flags := flags }
  let stream := { stream with pri := pri }
  let stream := { stream with state := initial_state }
  let stream := { stream with shut_flags := spdylay_shut_flag.SPDYLAY_SHUT_NONE.val }
  let stream := { stream with pushed_streams := none }
  let stream := { stream with pushed_streams_length := 0 }
  let stream := { stream with pushed_streams_capacity := 0 }
  let stream := { stream with stream_user_data := stream_user_data }
  let stream := { stream with deferred_data := NULL }
  stream

/-- The function `spdylay_stream_shutdown` (spdylay_stream.c, lines 53-56):
`stream->shut_flags |= flag`. -/
def spdylay_stream_shutdown (stream : spdylay_stream) (flag : spdylay_shut_flag) :
    spdylay_stream :=
  { stream with shut_flags := stream.shut_flags ||| flag.val }

/-- The C library call `realloc(ptr, n*sizeof(uint32_t))` on a block of 4-byte
cells.  `alloc` is what the allocator decides: `none` when it fails (the call
returns `NULL` and the old block stays as it is), `some fresh` when it
succeeds.  On success the new block has `n` cells; the cells that the old
block had keep their contents, and a new cell `i` holds the indeterminate
value `fresh[i]` (0 where `fresh` is too short).  `realloc(NULL, ..)` is
`malloc`: every cell is new. -/
def realloc (ptr : Option (List Int)) (n : Nat) (alloc : Option (List Int)) :
    Option (List Int) :=
  match alloc with
  | none => none
  | some fresh =>
    let old := ptr.getD []
    some ((List.range n).map fun i => if i < old.length then old.getD i 0 else fresh.getD i 0)

/-- The assignment `ptr[i] = v` into a block of cells: `none` when `ptr` is
`NULL` or `i` is outside the block (the C behaviour is undefined). -/
def store (ptr : Option (List Int)) (i : Nat) (v : Int) : Option (List Int) :=
  match ptr with
  | none => none
  | some cells => if i < cells.length then some (cells.set i v) else none

/-- The function `spdylay_stream_add_pushed_stream` (spdylay_stream.c, lines 58-73).
`alloc` is the allocator's decision should `realloc` be called.  The result is
the returned `int` and the stream after the call, or `none` when the write
`stream->pushed_streams[..] = stream_id` falls outside the block. -/
def spdylay_stream_add_pushed_stream (stream : spdylay_stream) (stream_id : Int)
    (alloc : Option (List Int)) : Option (Int × spdylay_stream) :=
  let grown : Except Int spdylay_stream :=
    if stream.pushed_streams_capacity = stream.pushed_streams_length then
      let capacity :=
        if stream.pushed_streams_capacity = 0 then 5 else stream.pushed_streams_capacity * 2
      match realloc stream.pushed_streams capacity alloc with
      | none => .error spdylay_error.SPDYLAY_ERR_NOMEM.val
      | some streams =>
        .ok { stream with pushed_streams := some streams, pushed_streams_capacity := capacity }
    else .ok stream
  match grown with
  | .error rv => some (rv, stream)
  | .ok stream =>
    match store stream.pushed_streams stream.pushed_streams_length stream_id with
    | none => none
    | some cells =>
      some (0, { stream with pushed_streams := some cells,
                             pushed_streams_length := stream.pushed_streams_length + 1 })

/-- The function `spdylay_stream_defer_data` (spdylay_stream.c, lines 75-80).  The result
is `none` when `assert(stream->deferred_data == NULL)` fails: the program is
aborted and the call does not return. -/
def spdylay_stream_defer_data (stream : spdylay_stream) (data : Nat) :
    Option spdylay_stream :=
  if stream.deferred_data = NULL then some { stream with deferred_data := data }
  else none

/-- The function `spdylay_stream_detach_deferred_data` (spdylay_stream.c, lines
82-85). -/
def spdylay_stream_detach_deferred_data (stream : spdylay_stream) : spdylay_stream :=
  { stream with deferred_data := NULL }

/-! ## Sequences of calls on one stream -/

/-- A call of one of the four functions that work on an initialised stream,
with its arguments (and, for `spdylay_stream_add_pushed_stream`, what the
allocator decides). -/
inductive stream_call where
  | shutdown (flag : spdylay_shut_flag)
  | add_pushed_stream (stream_id : Int) (alloc : Option (List Int))
  | defer_data (data : Nat)
  | detach_deferred_data
  deriving DecidableEq, Repr

/-- The stream after a call that completes normally (returns, with whatever
return value); `none` when it does not. -/
def exec_call (stream : spdylay_stream) : stream_call → Option spdylay_stream
  | .shutdown flag => some (spdylay_stream_shutdown stream flag)
  | .add_pushed_stream stream_id alloc =>
    (spdylay_stream_add_pushed_stream stream stream_id alloc).map Prod.snd
  | .defer_data data => spdylay_stream_defer_data stream data
  | .detach_deferred_data => some (spdylay_stream_detach_deferred_data stream)

/-- The stream after a sequence of calls, made in list order, that all
complete normally; `none` when one of them does not. -/
def exec_calls (stream : spdylay_stream) : List stream_call → Option spdylay_stream
  | [] => some stream
  | c :: cs => (exec_call stream c).bind fun stream => exec_calls stream cs

/-- The stream IDs stored in the pushed-stream list: the first
`pushed_streams_length` cells of the block `pushed_streams` points to; `none`
when the block does not have that many cells (or the pointer is `NULL` while
the length is not 0). -/
def pushed_list (stream : spdylay_stream) : Option (List Int) :=
  let cells := stream.pushed_streams.getD []
  if stream.pushed_streams_length ≤ cells.length then
    some (cells.take stream.pushed_streams_length)
  else none

/-- The item that a sequence of calls leaves deferred, in the words of the
specification: the item passed to the most recent `defer_data` call that no
`detach_deferred_data` call has followed, and nothing (`NULL`) when there is no
such call.  The calls are listed from the most recent one backwards. -/
def pending_deferred_rev : List stream_call → Nat
  | [] => NULL
  | .defer_data data :: _ => data
  | .detach_deferred_data :: _ => NULL
  | .shutdown _ :: earlier => pending_deferred_rev earlier
  | .add_pushed_stream _ _ :: earlier => pending_deferred_rev earlier

/-- The item that the calls `cs`, listed in the order they were made, leave
deferred. -/
def pending_deferred (cs : List stream_call) : Nat :=
  pending_deferred_rev cs.reverse

/-- The bitwise OR of all the flags of a list. -/
def shut_flags_or (flags : List spdylay_shut_flag) : Nat :=
  (flags.map spdylay_shut_flag.val).foldr (· ||| ·) 0

/-- The flag shuts the read half: its value has the bit of `SPDYLAY_SHUT_RD`. -/
def spdylay_shut_flag.shuts_rd (flag : spdylay_shut_flag) : Bool :=
  flag.val &&& spdylay_shut_flag.SPDYLAY_SHUT_RD.val != 0

/-- The flag shuts the write half: its value has the bit of `SPDYLAY_SHUT_WR`. -/
def spdylay_shut_flag.shuts_wr (flag : spdylay_shut_flag) : Bool :=
  flag.val &&& spdylay_shut_flag.SPDYLAY_SHUT_WR.val != 0

/-- The members that are fixed when the stream is created have the same
values in two stream records: user cookie, stream ID, flags, priority and
state. -/
def same_identity (a b : spdylay_stream) : Prop :=
  a.stream_user_data = b.stream_user_data ∧ a.stream_id = b.stream_id ∧
  a.flags = b.flags ∧ a.pri = b.pri ∧ a.state = b.state

instance same_identity_decidable (a b : spdylay_stream) : Decidable (same_identity a b) := by
  unfold same_identity
  infer_instance

/-- Every integer-valued member of a stream record, in record order: all
members but the state, an enumeration constant, and the pointer to the block
of pushed stream IDs. -/
def spdylay_stream.scalars (stream : spdylay_stream) : List Int :=
  [stream.stream_id, stream.flags, stream.pri, stream.shut_flags,
   stream.pushed_streams_length, stream.pushed_streams_capacity,
   stream.stream_user_data, stream.deferred_data]

/-- The member `pushed_streams` points to a block of `pushed_streams_capacity`
cells (no block, the null pointer, when the capacity is 0): what the C
structure means by the capacity. -/
def block_has_capacity (stream : spdylay_stream) : Prop :=
  (stream.pushed_streams.getD []).length = stream.pushed_streams_capacity

instance block_has_capacity_decidable (stream : spdylay_stream) :
    Decidable (block_has_capacity stream) := by
  unfold block_has_capacity
  infer_instance

/-- A sequence of `spdylay_stream_add_pushed_stream` calls on one stream, made
in list order, each with its stream ID and the allocator's decision.  The
result is the number of calls that returned 0 and the stream after the last
call; `none` when a call writes outside the block. -/
def add_pushed_streams (stream : spdylay_stream) :
    List (Int × Option (List Int)) → Option (Nat × spdylay_stream)
  | [] => some (0, stream)
  | (stream_id, alloc) :: rest =>
    match spdylay_stream_add_pushed_stream stream stream_id alloc with
    | none => none
    | some (rv, stream) =>
      (add_pushed_streams stream rest).map fun r => ((if rv = 0 then r.1 + 1 else r.1), r.2)

/-- The capacity follows the growth schedule 0, 5, 10, 20, ... for the length:
either nothing was ever added (capacity 0, length 0), or the capacity is
`5 * 2 ^ k` for the least `k` for which that is at least the length. -/
def on_schedule (stream : spdylay_stream) : Prop :=
  (stream.pushed_streams_capacity = 0 ∧ stream.pushed_streams_length = 0) ∨
  ∃ k, stream.pushed_streams_capacity = 5 * 2 ^ k ∧
    1 ≤ stream.pushed_streams_length ∧ stream.pushed_streams_length ≤ 5 * 2 ^ k ∧
    ∀ j, stream.pushed_streams_length ≤ 5 * 2 ^ j → k ≤ j

/-! ## Concrete inputs -/

/-- A stream record with arbitrary previous contents, used as a concrete
input. -/
def stale_stream : spdylay_stream :=
  { stream_id := 77, state := .SPDYLAY_STREAM_CLOSING, flags := 1, pri := 2, shut_flags := 3,
    pushed_streams := some [4, 6], pushed_streams_length := 2, pushed_streams_capacity := 2,
    stream_user_data := 4096, deferred_data := 8192 }

/-- A run of calls used as a concrete input: defer, resume, defer again, then
push a stream and shut the write half. -/
def sample_calls : List stream_call :=
  [.defer_data 100, .detach_deferred_data, .shutdown .SPDYLAY_SHUT_RD, .defer_data 200,
   .add_pushed_stream 2 (some []), .shutdown .SPDYLAY_SHUT_WR]

/-- A stream whose pushed-stream list is full, used as a concrete input: five
pushed streams in a block of five cells. -/
def full_stream : spdylay_stream :=
  { stream_id := 1, state := .SPDYLAY_STREAM_OPENED, flags := 0, pri := 3, shut_flags := 0,
    pushed_streams := some [2, 4, 6, 8, 10], pushed_streams_length := 5,
    pushed_streams_capacity := 5, stream_user_data := 4096, deferred_data := 0 }

/-- The stream that `sample_calls` lead to from a fresh stream 1 with user
cookie `stream_user_data`. -/
def sample_result (stream_user_data : Nat) : spdylay_stream :=
  { stream_id := 1, state := .SPDYLAY_STREAM_OPENING, flags := 0, pri := 0, shut_flags := 3,
    pushed_streams := some [2, 0, 0, 0, 0], pushed_streams_length := 1,
    pushed_streams_capacity := 5, stream_user_data := stream_user_data, deferred_data := 200 }

/-- The stream `full_stream` after stream 12 was added to it, the new cells of
the reallocated block holding `junk` until written. -/
def grown_stream (junk : Int) : spdylay_stream :=
  { full_stream with
    pushed_streams := some [2, 4, 6, 8, 10, 12, junk, junk, junk, junk],
    pushed_streams_length := 6, pushed_streams_capacity := 10 }

/-- Eight calls of `spdylay_stream_add_pushed_stream`, used as a concrete
input: the allocator fails on the first call and on the seventh, and succeeds
on the second and on the eighth; the other calls find room and do not ask it. -/
def sample_adds : List (Int × Option (List Int)) :=
  [(2, none), (2, some []), (4, none), (6, none), (8, none), (10, none), (12, none),
   (12, some [])]

/-! # Properties -/

/-! ## Effect of one call on each member -/

theorem add_pushed_stream_frame (stream stream' : spdylay_stream) (stream_id rv : Int)
    (alloc : Option (List Int))
    (h : spdylay_stream_add_pushed_stream stream stream_id alloc = some (rv, stream')) :
    stream'.stream_id = stream.stream_id ∧ stream'.state = stream.state ∧
    stream'.flags = stream.flags ∧ stream'.pri = stream.pri ∧
    stream'.shut_flags = stream.shut_flags ∧
    stream'.stream_user_data = stream.stream_user_data ∧
    stream'.deferred_data = stream.deferred_data := by
  by_cases hc : stream.pushed_streams_capacity = stream.pushed_streams_length
  · cases alloc with
    | none =>
      simp only [spdylay_stream_add_pushed_stream, hc, realloc, if_true, Option.some.injEq,
        Prod.mk.injEq] at h
      obtain ⟨-, rfl⟩ := h
      simp
    | some fresh =>
      simp only [spdylay_stream_add_pushed_stream, hc, realloc, if_true] at h
      split at h
      · exact absurd h (by simp)
      · simp only [Option.some.injEq, Prod.mk.injEq] at h
        obtain ⟨-, rfl⟩ := h
        simp
  · simp only [spdylay_stream_add_pushed_stream, hc, if_false] at h
    split at h
    · exact absurd h (by simp)
    · simp only [Option.some.injEq, Prod.mk.injEq] at h
      obtain ⟨-, rfl⟩ := h
      simp

theorem exec_calls_append (stream : spdylay_stream) (cs ds : List stream_call) :
    exec_calls stream (cs ++ ds) = (exec_calls stream cs).bind fun t => exec_calls t ds := by
  induction cs generalizing stream with
  | nil => simp [exec_calls]
  | cons c cs ih =>
    simp only [List.cons_append, exec_calls]
    cases exec_call stream c with
    | none => simp
    | some t => simpa using ih t

theorem exec_calls_snoc (stream s : spdylay_stream) (cs : List stream_call) (c : stream_call)
    (h : exec_calls stream (cs ++ [c]) = some s) :
    ∃ t, exec_calls stream cs = some t ∧ exec_call t c = some s := by
  rw [exec_calls_append] at h
  cases ht : exec_calls stream cs with
  | none => simp [ht] at h
  | some t =>
    refine ⟨t, rfl, ?_⟩
    simp only [ht, Option.some_bind, exec_calls] at h
    cases hc : exec_call t c with
    | none => simp [hc] at h
    | some u => simpa [hc] using h

/-- The deferred slot after one call that completes normally. -/
theorem exec_call_deferred_data (t s : spdylay_stream) (c : stream_call)
    (h : exec_call t c = some s) :
    s.deferred_data = pending_deferred_rev [c] ∨
    ((∀ d, c ≠ .defer_data d) ∧ c ≠ .detach_deferred_data ∧
      s.deferred_data = t.deferred_data) := by
  cases c with
  | shutdown flag =>
    right
    simp only [exec_call, Option.some.injEq] at h
    subst h
    simp [spdylay_stream_shutdown]
  | add_pushed_stream stream_id alloc =>
    right
    simp only [exec_call, Option.map_eq_some'] at h
    obtain ⟨⟨rv, u⟩, hu, rfl⟩ := h
    have := add_pushed_stream_frame t u stream_id rv alloc hu
    simp [this.2.2.2.2.2.2]
  | defer_data data =>
    left
    simp only [exec_call, spdylay_stream_defer_data] at h
    split at h
    · simp only [Option.some.injEq] at h
      subst h
      simp [pending_deferred_rev]
    · exact absurd h (by simp)
  | detach_deferred_data =>
    left
    simp only [exec_call, Option.some.injEq] at h
    subst h
    simp [pending_deferred_rev, spdylay_stream_detach_deferred_data]

/-- The deferred slot after any sequence of calls that complete normally, on a
stream whose slot was empty at the start. -/
theorem exec_calls_deferred_data (stream : spdylay_stream)
    (h0 : stream.deferred_data = NULL) (cs : List stream_call) :
    ∀ s, exec_calls stream cs = some s →
      s.deferred_data = pending_deferred cs ∧
      (s.deferred_data = NULL ∨
        ∃ before after, cs = before ++ stream_call.defer_data s.deferred_data :: after ∧
          ∀ c ∈ after, (∀ d, c ≠ .defer_data d) ∧ c ≠ .detach_deferred_data) := by
  induction cs using List.reverseRecOn with
  | nil =>
    intro s h
    simp only [exec_calls, Option.some.injEq] at h
    subst h
    exact ⟨by simp [pending_deferred, pending_deferred_rev, h0], Or.inl h0⟩
  | append_singleton cs c ih =>
    intro s h
    obtain ⟨t, ht, hc⟩ := exec_calls_snoc stream s cs c h
    obtain ⟨iht, ihex⟩ := ih t ht
    have hrev : pending_deferred (cs ++ [c]) = pending_deferred_rev (c :: cs.reverse) := by
      simp [pending_deferred]
    rcases exec_call_deferred_data t s c hc with hnew | ⟨hnd, hnt, hsame⟩
    · cases c with
      | shutdown flag =>
        simp only [exec_call, Option.some.injEq] at hc
        subst hc
        refine ⟨by simpa [hrev, pending_deferred_rev, spdylay_stream_shutdown, pending_deferred]
          using iht, Or.inl ?_⟩
        simpa [pending_deferred_rev] using hnew
      | add_pushed_stream stream_id alloc =>
        have hz : s.deferred_data = NULL := by simpa [pending_deferred_rev] using hnew
        simp only [exec_call, Option.map_eq_some'] at hc
        obtain ⟨⟨rv, u⟩, hu, rfl⟩ := hc
        have hfr := (add_pushed_stream_frame t u stream_id rv alloc hu).2.2.2.2.2.2
        refine ⟨?_, Or.inl hz⟩
        simp only [hrev, pending_deferred_rev]
        simpa [pending_deferred, hfr] using iht
      | defer_data data =>
        have hd : s.deferred_data = data := by simpa [pending_deferred_rev] using hnew
        refine ⟨by simp [hrev, pending_deferred_rev, hd], Or.inr ⟨cs, [], ?_, by simp⟩⟩
        simp [hd]
      | detach_deferred_data =>
        have hz : s.deferred_data = NULL := by simpa [pending_deferred_rev] using hnew
        exact ⟨by simp [hrev, pending_deferred_rev, hz], Or.inl hz⟩
    · refine ⟨?_, ?_⟩
      · rw [hrev, hsame, iht]
        cases c with
        | shutdown flag => simp [pending_deferred_rev, pending_deferred]
        | add_pushed_stream stream_id alloc => simp [pending_deferred_rev, pending_deferred]
        | defer_data data => exact absurd rfl (hnd data)
        | detach_deferred_data => exact absurd rfl hnt
      · rcases ihex with hz | ⟨before, after, hcs, hafter⟩
        · exact Or.inl (by rw [hsame, hz])
        · refine Or.inr ⟨before, after ++ [c], ?_, ?_⟩
          · rw [hsame]
            conv_lhs => rw [hcs]
            simp
          · intro c' hc'
            rcases List.mem_append.1 hc' with hin | hin
            · exact hafter c' hin
            · have : c' = c := by simpa using hin
              subst this
              exact ⟨hnd, hnt⟩

/-- What one call that completes normally does to the members other than the
deferred slot and the pushed-stream list. -/
theorem exec_call_frame (t s : spdylay_stream) (c : stream_call)
    (h : exec_call t c = some s) :
    same_identity s t ∧
    (s.shut_flags = t.shut_flags ∨
      ∃ flag, c = .shutdown flag ∧ s.shut_flags = t.shut_flags ||| flag.val) := by
  cases c with
  | shutdown flag =>
    simp only [exec_call, Option.some.injEq] at h
    subst h
    exact ⟨⟨rfl, rfl, rfl, rfl, rfl⟩, Or.inr ⟨flag, rfl, rfl⟩⟩
  | add_pushed_stream stream_id alloc =>
    simp only [exec_call, Option.map_eq_some'] at h
    obtain ⟨⟨rv, u⟩, hu, rfl⟩ := h
    obtain ⟨h1, h2, h3, h4, h5, h6, -⟩ := add_pushed_stream_frame t u stream_id rv alloc hu
    exact ⟨⟨h6, h1, h3, h4, h2⟩, Or.inl h5⟩
  | defer_data data =>
    simp only [exec_call, spdylay_stream_defer_data] at h
    split at h
    · simp only [Option.some.injEq] at h
      subst h
      exact ⟨⟨rfl, rfl, rfl, rfl, rfl⟩, Or.inl rfl⟩
    · exact absurd h (by simp)
  | detach_deferred_data =>
    simp only [exec_call, Option.some.injEq] at h
    subst h
    exact ⟨⟨rfl, rfl, rfl, rfl, rfl⟩, Or.inl rfl⟩

/-- Any sequence of calls that complete normally leaves the creation-time
members as they were and keeps every bit of the shut flags that was set. -/
theorem exec_calls_frame (cs : List stream_call) :
    ∀ t s, exec_calls t cs = some s →
      same_identity s t ∧ ∀ i, t.shut_flags.testBit i = true → s.shut_flags.testBit i = true := by
  induction cs with
  | nil =>
    intro t s h
    simp only [exec_calls, Option.some.injEq] at h
    subst h
    exact ⟨⟨rfl, rfl, rfl, rfl, rfl⟩, fun _ hi => hi⟩
  | cons c cs ih =>
    intro t s h
    simp only [exec_calls] at h
    cases hu : exec_call t c with
    | none => simp [hu] at h
    | some u =>
      simp only [hu, Option.some_bind] at h
      obtain ⟨⟨a1, a2, a3, a4, a5⟩, hbits⟩ := ih u s h
      obtain ⟨⟨b1, b2, b3, b4, b5⟩, hsh⟩ := exec_call_frame t u c hu
      refine ⟨⟨a1.trans b1, a2.trans b2, a3.trans b3, a4.trans b4, a5.trans b5⟩, ?_⟩
      intro i hi
      apply hbits
      rcases hsh with hsame | ⟨flag, -, hor⟩
      · rw [hsame]
        exact hi
      · rw [hor, Nat.testBit_or, hi]
        rfl

/-! ## Shut flags -/

theorem shut_flags_or_cons (flag : spdylay_shut_flag) (flags : List spdylay_shut_flag) :
    shut_flags_or (flag :: flags) = flag.val ||| shut_flags_or flags := rfl

/-- A run of shutdown calls completes, and ORs every flag into the shut flags. -/
theorem exec_calls_shutdown (flags : List spdylay_shut_flag) :
    ∀ t, exec_calls t (flags.map stream_call.shutdown)
      = some { t with shut_flags := t.shut_flags ||| shut_flags_or flags } := by
  induction flags with
  | nil =>
    intro t
    simp [exec_calls, shut_flags_or]
  | cons flag flags ih =>
    intro t
    simp only [List.map_cons, exec_calls, exec_call, Option.some_bind, ih,
      spdylay_stream_shutdown, shut_flags_or_cons, Nat.or_assoc]

theorem shut_flags_or_perm (flags flags' : List spdylay_shut_flag) (h : flags.Perm flags') :
    shut_flags_or flags = shut_flags_or flags' := by
  induction h with
  | nil => rfl
  | cons x _ ih => simp only [shut_flags_or_cons, ih]
  | swap x y l =>
    simp only [shut_flags_or_cons, ← Nat.or_assoc, Nat.or_comm x.val y.val]
  | trans _ _ ih1 ih2 => exact ih1.trans ih2

theorem shut_flags_or_lt (flags : List spdylay_shut_flag) : shut_flags_or flags < 4 := by
  induction flags with
  | nil => decide
  | cons flag flags ih =>
    rw [shut_flags_or_cons]
    have hf : flag.val < 2 ^ 2 := by cases flag <;> decide
    exact Nat.or_lt_two_pow hf ih

theorem shut_flags_or_rd (flags : List spdylay_shut_flag) :
    (shut_flags_or flags).testBit 0 = true ↔ ∃ f ∈ flags, f.shuts_rd = true := by
  induction flags with
  | nil => simp [shut_flags_or]
  | cons flag flags ih =>
    have hf : flag.val.testBit 0 = flag.shuts_rd := by cases flag <;> rfl
    simp only [shut_flags_or_cons, Nat.testBit_or, Bool.or_eq_true, ih, hf, List.mem_cons,
      exists_eq_or_imp]

theorem shut_flags_or_wr (flags : List spdylay_shut_flag) :
    (shut_flags_or flags).testBit 1 = true ↔ ∃ f ∈ flags, f.shuts_wr = true := by
  induction flags with
  | nil => simp [shut_flags_or]
  | cons flag flags ih =>
    have hf : flag.val.testBit 1 = flag.shuts_wr := by cases flag <;> rfl
    simp only [shut_flags_or_cons, Nat.testBit_or, Bool.or_eq_true, ih, hf, List.mem_cons,
      exists_eq_or_imp]

theorem rdwr_iff_both_bits (x : Nat) (h : x < 4) :
    x = spdylay_shut_flag.SPDYLAY_SHUT_RDWR.val ↔ x.testBit 0 = true ∧ x.testBit 1 = true := by
  interval_cases x <;> decide

/-! ## The heap block of the pushed-stream list -/

theorem take_set_succ (l : List Int) (n : Nat) (a : Int) (h : n < l.length) :
    (l.set n a).take (n + 1) = l.take n ++ [a] := by
  induction l generalizing n with
  | nil => simp at h
  | cons x xs ih =>
    cases n with
    | zero => simp
    | succ m =>
      simp only [List.length_cons, Nat.add_lt_add_iff_right] at h
      simp [ih m h]

/-- A successful `realloc` gives a block of the size asked for. -/
theorem realloc_length (ptr : Option (List Int)) (n : Nat) (fresh cells : List Int)
    (h : realloc ptr n (some fresh) = some cells) : cells.length = n := by
  simp only [realloc, Option.some.injEq] at h
  subst h
  simp

/-- A successful `realloc` keeps the cells of the old block. -/
theorem realloc_take (ptr : Option (List Int)) (n len : Nat) (fresh cells : List Int)
    (h : realloc ptr n (some fresh) = some cells) (h1 : len ≤ (ptr.getD []).length)
    (h2 : len ≤ n) : cells.take len = (ptr.getD []).take len := by
  simp only [realloc, Option.some.injEq] at h
  subst h
  apply List.ext_getElem?
  intro i
  by_cases hi : i < len
  · have h3 : i < n := by omega
    have h4 : i < (ptr.getD []).length := by omega
    simp [List.getElem?_take, hi, h3, h4, List.getElem?_range]
  · simp [List.getElem?_take, hi]

theorem store_eq_some (ptr : Option (List Int)) (i : Nat) (v : Int) (cells' : List Int)
    (h : store ptr i v = some cells') :
    ∃ cells, ptr = some cells ∧ i < cells.length ∧ cells' = cells.set i v := by
  cases ptr with
  | none => simp [store] at h
  | some cells =>
    simp only [store] at h
    split at h
    · rename_i hi
      exact ⟨cells, rfl, hi, by simpa using h.symm⟩
    · exact absurd h (by simp)

/-- What a call of `spdylay_stream_add_pushed_stream` that returns 0 did: the
block `cells` written into is the block of the stream when the list was not
full and a reallocated block of the new capacity, with the old cells kept,
when it was; the stream ID went into cell `pushed_streams_length`. -/
theorem add_pushed_stream_ok (stream stream' : spdylay_stream) (stream_id : Int)
    (alloc : Option (List Int))
    (h : spdylay_stream_add_pushed_stream stream stream_id alloc = some (0, stream')) :
    ∃ cells capacity,
      stream.pushed_streams_length < cells.length ∧
      stream' = { stream with
        pushed_streams := some (cells.set stream.pushed_streams_length stream_id),
        pushed_streams_length := stream.pushed_streams_length + 1,
        pushed_streams_capacity := capacity } ∧
      ((stream.pushed_streams_capacity ≠ stream.pushed_streams_length ∧
          stream.pushed_streams = some cells ∧ capacity = stream.pushed_streams_capacity) ∨
       (stream.pushed_streams_capacity = stream.pushed_streams_length ∧
          capacity = (if stream.pushed_streams_capacity = 0 then 5
            else stream.pushed_streams_capacity * 2) ∧
          ∃ fresh, alloc = some fresh ∧
            realloc stream.pushed_streams capacity (some fresh) = some cells)) := by
  by_cases hc : stream.pushed_streams_capacity = stream.pushed_streams_length
  · cases alloc with
    | none =>
      simp only [spdylay_stream_add_pushed_stream, hc, realloc, if_true, Option.some.injEq,
        Prod.mk.injEq] at h
      exact absurd h.1 (by decide)
    | some fresh =>
      simp only [spdylay_stream_add_pushed_stream, if_pos hc, realloc] at h
      split at h
      · exact absurd h (by simp)
      · rename_i cells' hst
        obtain ⟨cells, hcells, hlt, rfl⟩ := store_eq_some _ _ _ _ hst
        simp only [Option.some.injEq, Prod.mk.injEq, true_and] at h
        simp only [Option.some.injEq] at hcells
        refine ⟨cells, _, hlt, h.symm, Or.inr ⟨hc, rfl, fresh, rfl, ?_⟩⟩
        simp only [realloc, Option.some.injEq]
        exact hcells
  · simp only [spdylay_stream_add_pushed_stream, hc, if_false] at h
    split at h
    · exact absurd h (by simp)
    · rename_i cells' hst
      obtain ⟨cells, hcells, hlt, rfl⟩ := store_eq_some _ _ _ _ hst
      simp only [Option.some.injEq, Prod.mk.injEq, true_and] at h
      exact ⟨cells, _, hlt, by rw [← h], Or.inl ⟨hc, hcells, rfl⟩⟩

/-- The pushed-stream list after a call of `spdylay_stream_add_pushed_stream`
that returns 0. -/
theorem add_pushed_stream_list (stream stream' : spdylay_stream) (stream_id : Int)
    (alloc : Option (List Int)) (old : List Int)
    (h : spdylay_stream_add_pushed_stream stream stream_id alloc = some (0, stream'))
    (hold : pushed_list stream = some old) :
    pushed_list stream' = some (old ++ [stream_id]) ∧
    old.length = stream.pushed_streams_length ∧
    stream'.pushed_streams_length = stream.pushed_streams_length + 1 := by
  have hlen : stream.pushed_streams_length ≤ (stream.pushed_streams.getD []).length ∧
      old = (stream.pushed_streams.getD []).take stream.pushed_streams_length := by
    simp only [pushed_list] at hold
    split at hold
    · rename_i hl
      exact ⟨hl, by simpa using hold.symm⟩
    · exact absurd hold (by simp)
  obtain ⟨hl, hold'⟩ := hlen
  obtain ⟨cells, capacity, hlt, rfl, hcase⟩ := add_pushed_stream_ok _ _ _ _ h
  have htake : cells.take stream.pushed_streams_length = old := by
    rcases hcase with ⟨-, hp, -⟩ | ⟨-, -, fresh, -, hre⟩
    · rw [hold', hp]
      simp
    · rw [hold']
      have hn := realloc_length _ _ _ _ hre
      exact realloc_take _ _ _ _ _ hre hl (by omega)
  refine ⟨?_, ?_, rfl⟩
  · simp only [pushed_list, Option.getD_some, List.length_set]
    rw [if_pos (by omega), take_set_succ _ _ _ hlt, htake]
  · rw [hold']
    simp [hl]

/-- A full list and a failing allocator: the call returns `SPDYLAY_ERR_NOMEM`
and the stream is as before. -/
theorem add_pushed_stream_nomem (stream : spdylay_stream) (stream_id : Int)
    (hc : stream.pushed_streams_capacity = stream.pushed_streams_length) :
    spdylay_stream_add_pushed_stream stream stream_id none
      = some (spdylay_error.SPDYLAY_ERR_NOMEM.val, stream) := by
  simp only [spdylay_stream_add_pushed_stream, if_pos hc, realloc]

/-- A full list and a succeeding allocator: the call returns 0, the block is
the reallocated one and the capacity the new one. -/
theorem add_pushed_stream_grow (stream : spdylay_stream) (stream_id : Int) (fresh : List Int)
    (hc : stream.pushed_streams_capacity = stream.pushed_streams_length) :
    ∃ cells, realloc stream.pushed_streams
        (if stream.pushed_streams_capacity = 0 then 5 else stream.pushed_streams_capacity * 2)
        (some fresh) = some cells ∧
      stream.pushed_streams_length < cells.length ∧
      spdylay_stream_add_pushed_stream stream stream_id (some fresh)
        = some (0, { stream with
            pushed_streams := some (cells.set stream.pushed_streams_length stream_id),
            pushed_streams_length := stream.pushed_streams_length + 1,
            pushed_streams_capacity :=
              if stream.pushed_streams_capacity = 0 then 5
              else stream.pushed_streams_capacity * 2 }) := by
  cases hre : realloc stream.pushed_streams
      (if stream.pushed_streams_capacity = 0 then 5 else stream.pushed_streams_capacity * 2)
      (some fresh) with
  | none => simp [realloc] at hre
  | some cells =>
    have hlen := realloc_length _ _ _ _ hre
    have hlt : stream.pushed_streams_length < cells.length := by
      rw [hlen]
      split <;> omega
    refine ⟨cells, rfl, hlt, ?_⟩
    simp only [spdylay_stream_add_pushed_stream, if_pos hc, hre, store, if_pos hlt]

/-- A list with room: the call returns 0 whatever the allocator would decide,
writes into the block of the stream and leaves the capacity as it is. -/
theorem add_pushed_stream_room (stream : spdylay_stream) (stream_id : Int)
    (alloc : Option (List Int)) (cells : List Int)
    (hc : stream.pushed_streams_capacity ≠ stream.pushed_streams_length)
    (hp : stream.pushed_streams = some cells)
    (hlt : stream.pushed_streams_length < cells.length) :
    spdylay_stream_add_pushed_stream stream stream_id alloc
      = some (0, { stream with
          pushed_streams := some (cells.set stream.pushed_streams_length stream_id),
          pushed_streams_length := stream.pushed_streams_length + 1 }) := by
  simp only [spdylay_stream_add_pushed_stream, if_neg hc, hp, store, if_pos hlt]

/-- The two ways a call of `spdylay_stream_add_pushed_stream` returns: with 0,
or with `SPDYLAY_ERR_NOMEM`, the list being full, the allocator failing and
the stream being as before. -/
theorem add_pushed_stream_ret (stream stream' : spdylay_stream) (stream_id rv : Int)
    (alloc : Option (List Int))
    (h : spdylay_stream_add_pushed_stream stream stream_id alloc = some (rv, stream')) :
    rv = 0 ∨
    (rv = spdylay_error.SPDYLAY_ERR_NOMEM.val ∧ stream' = stream ∧
      stream.pushed_streams_capacity = stream.pushed_streams_length ∧ alloc = none) := by
  by_cases hc : stream.pushed_streams_capacity = stream.pushed_streams_length
  · cases alloc with
    | none =>
      rw [add_pushed_stream_nomem stream stream_id hc] at h
      simp only [Option.some.injEq, Prod.mk.injEq] at h
      exact Or.inr ⟨h.1.symm, h.2.symm, hc, rfl⟩
    | some fresh =>
      obtain ⟨cells, -, -, heq⟩ := add_pushed_stream_grow stream stream_id fresh hc
      rw [heq] at h
      simp only [Option.some.injEq, Prod.mk.injEq] at h
      exact Or.inl h.1.symm
  · simp only [spdylay_stream_add_pushed_stream, if_neg hc] at h
    split at h
    · exact absurd h (by simp)
    · simp only [Option.some.injEq, Prod.mk.injEq] at h
      exact Or.inl h.1.symm

/-- On a stream whose block has the capacity recorded and whose length is
within the capacity, every call of `spdylay_stream_add_pushed_stream` returns. -/
theorem add_pushed_stream_returns (stream : spdylay_stream) (stream_id : Int)
    (alloc : Option (List Int))
    (hle : stream.pushed_streams_length ≤ stream.pushed_streams_capacity)
    (hb : block_has_capacity stream) :
    ∃ rv stream', spdylay_stream_add_pushed_stream stream stream_id alloc = some (rv, stream') := by
  by_cases hc : stream.pushed_streams_capacity = stream.pushed_streams_length
  · cases alloc with
    | none => exact ⟨_, _, add_pushed_stream_nomem stream stream_id hc⟩
    | some fresh =>
      obtain ⟨cells, -, -, heq⟩ := add_pushed_stream_grow stream stream_id fresh hc
      exact ⟨_, _, heq⟩
  · unfold block_has_capacity at hb
    cases hp : stream.pushed_streams with
    | none =>
      rw [hp] at hb
      simp only [Option.getD_none, List.length_nil] at hb
      omega
    | some cells =>
      rw [hp] at hb
      simp only [Option.getD_some] at hb
      exact ⟨_, _, add_pushed_stream_room stream stream_id alloc cells hc hp (by omega)⟩

/-- A call of `spdylay_stream_add_pushed_stream` that returns keeps the length
within the capacity and the block of the capacity recorded. -/
theorem add_pushed_stream_valid (stream stream' : spdylay_stream) (stream_id rv : Int)
    (alloc : Option (List Int))
    (h : spdylay_stream_add_pushed_stream stream stream_id alloc = some (rv, stream')) :
    (stream.pushed_streams_length ≤ stream.pushed_streams_capacity →
      stream'.pushed_streams_length ≤ stream'.pushed_streams_capacity) ∧
    (block_has_capacity stream → block_has_capacity stream') := by
  rcases add_pushed_stream_ret stream stream' stream_id rv alloc h with rfl | ⟨-, rfl, -, -⟩
  · obtain ⟨cells, capacity, hlt, rfl, hcase⟩ := add_pushed_stream_ok _ _ _ _ h
    rcases hcase with ⟨hne, hp, rfl⟩ | ⟨heq, rfl, fresh, -, hre⟩
    · refine ⟨fun hle => ?_, fun hb => ?_⟩
      · simp only
        omega
      · unfold block_has_capacity at hb ⊢
        rw [hp] at hb
        simpa using hb
    · have hlen := realloc_length _ _ _ _ hre
      refine ⟨fun _ => ?_, fun _ => ?_⟩
      · simp only
        omega
      · unfold block_has_capacity
        simpa using hlen
  · exact ⟨fun hle => hle, fun hb => hb⟩

/-- One call that completes normally keeps the length within the capacity and
the block of the capacity recorded. -/
theorem exec_call_valid (t s : spdylay_stream) (c : stream_call)
    (h : exec_call t c = some s) :
    (t.pushed_streams_length ≤ t.pushed_streams_capacity →
      s.pushed_streams_length ≤ s.pushed_streams_capacity) ∧
    (block_has_capacity t → block_has_capacity s) := by
  cases c with
  | shutdown flag =>
    simp only [exec_call, Option.some.injEq] at h
    subst h
    exact ⟨fun hle => hle, fun hb => hb⟩
  | add_pushed_stream stream_id alloc =>
    simp only [exec_call, Option.map_eq_some'] at h
    obtain ⟨⟨rv, u⟩, hu, rfl⟩ := h
    exact add_pushed_stream_valid t u stream_id rv alloc hu
  | defer_data data =>
    simp only [exec_call, spdylay_stream_defer_data] at h
    split at h
    · simp only [Option.some.injEq] at h
      subst h
      exact ⟨fun hle => hle, fun hb => hb⟩
    · exact absurd h (by simp)
  | detach_deferred_data =>
    simp only [exec_call, Option.some.injEq] at h
    subst h
    exact ⟨fun hle => hle, fun hb => hb⟩

/-- Any sequence of calls that complete normally keeps the length within the
capacity and the block of the capacity recorded. -/
theorem exec_calls_valid (cs : List stream_call) :
    ∀ t s, exec_calls t cs = some s →
      t.pushed_streams_length ≤ t.pushed_streams_capacity → block_has_capacity t →
      s.pushed_streams_length ≤ s.pushed_streams_capacity ∧ block_has_capacity s := by
  induction cs with
  | nil =>
    intro t s h hle hb
    simp only [exec_calls, Option.some.injEq] at h
    subst h
    exact ⟨hle, hb⟩
  | cons c cs ih =>
    intro t s h hle hb
    simp only [exec_calls] at h
    cases hu : exec_call t c with
    | none => simp [hu] at h
    | some u =>
      simp only [hu, Option.some_bind] at h
      obtain ⟨h1, h2⟩ := exec_call_valid t u c hu
      exact ih u s h (h1 hle) (h2 hb)

/-! ## The growth schedule -/

/-- A call of `spdylay_stream_add_pushed_stream` that returns keeps the
capacity on the growth schedule and adds 1 to the length exactly when it
returns 0. -/
theorem add_pushed_stream_schedule (stream stream' : spdylay_stream) (stream_id rv : Int)
    (alloc : Option (List Int))
    (h : spdylay_stream_add_pushed_stream stream stream_id alloc = some (rv, stream'))
    (hs : on_schedule stream) :
    on_schedule stream' ∧
    stream'.pushed_streams_length
      = stream.pushed_streams_length + (if rv = 0 then 1 else 0) := by
  rcases add_pushed_stream_ret stream stream' stream_id rv alloc h with rfl | ⟨hrv, rfl, -, -⟩
  · obtain ⟨cells, capacity, hlt, rfl, hcase⟩ := add_pushed_stream_ok _ _ _ _ h
    refine ⟨?_, by simp⟩
    rcases hcase with ⟨hne, -, rfl⟩ | ⟨heq, rfl, -⟩
    · rcases hs with ⟨h0, h1⟩ | ⟨k, hk, h1, h2, hmin⟩
      · exact absurd (h0.trans h1.symm) hne
      · refine Or.inr ⟨k, hk, ?_, ?_, ?_⟩
        · simp only
          omega
        · simp only
          omega
        · intro j hj
          simp only at hj
          exact hmin j (by omega)
    · rcases hs with ⟨h0, h1⟩ | ⟨k, hk, h1, h2, hmin⟩
      · refine Or.inr ⟨0, ?_, ?_, ?_, ?_⟩
        · simp [h0]
        · simp only
          omega
        · simp only [h1]
          omega
        · intro j _
          omega
      · have hpos : 0 < 2 ^ k := Nat.pos_pow_of_pos k (by decide)
        have hsucc : 2 ^ (k + 1) = 2 * 2 ^ k := by rw [pow_succ]; omega
        refine Or.inr ⟨k + 1, ?_, ?_, ?_, ?_⟩
        · simp only
          rw [if_neg (by omega), hk, hsucc]
          omega
        · simp only
          omega
        · simp only
          rw [hsucc]
          omega
        · intro j hj
          simp only at hj
          have hlt2 : 2 ^ k < 2 ^ j := by omega
          have := (Nat.pow_lt_pow_iff_right (by decide : 1 < 2)).1 hlt2
          omega
  · have hne : ¬ spdylay_error.SPDYLAY_ERR_NOMEM.val = 0 := by decide
    rw [hrv, if_neg hne]
    exact ⟨hs, rfl⟩

/-- A run of `spdylay_stream_add_pushed_stream` calls keeps the capacity on the
growth schedule, and the length grows by the number of calls that returned
0. -/
theorem add_pushed_streams_schedule (calls : List (Int × Option (List Int))) :
    ∀ stream n s, add_pushed_streams stream calls = some (n, s) → on_schedule stream →
      on_schedule s ∧ s.pushed_streams_length = stream.pushed_streams_length + n := by
  induction calls with
  | nil =>
    intro stream n s h hs
    simp only [add_pushed_streams, Option.some.injEq, Prod.mk.injEq] at h
    obtain ⟨rfl, rfl⟩ := h
    exact ⟨hs, rfl⟩
  | cons c calls ih =>
    intro stream n s h hs
    obtain ⟨stream_id, alloc⟩ := c
    simp only [add_pushed_streams] at h
    cases hu : spdylay_stream_add_pushed_stream stream stream_id alloc with
    | none => simp [hu] at h
    | some r =>
      obtain ⟨rv, u⟩ := r
      simp only [hu, Option.map_eq_some'] at h
      obtain ⟨⟨m, t⟩, hrest, heq⟩ := h
      simp only [Prod.mk.injEq] at heq
      obtain ⟨rfl, rfl⟩ := heq
      obtain ⟨hsu, hlen⟩ := add_pushed_stream_schedule stream u stream_id rv alloc hu hs
      obtain ⟨hst, hlen2⟩ := ih u m t hrest hsu
      refine ⟨hst, ?_⟩
      rw [hlen2, hlen]
      split <;> omega

/-- A run of `spdylay_stream_add_pushed_stream` calls on a stream whose block
has the capacity recorded and whose length is within the capacity returns
from every call; when the allocator never fails, every call returns 0. -/
theorem add_pushed_streams_returns (calls : List (Int × Option (List Int))) :
    ∀ stream, stream.pushed_streams_length ≤ stream.pushed_streams_capacity →
      block_has_capacity stream →
      (∃ n s, add_pushed_streams stream calls = some (n, s)) ∧
      ((∀ c ∈ calls, c.2 ≠ none) →
        ∃ s, add_pushed_streams stream calls = some (calls.length, s)) := by
  induction calls with
  | nil =>
    intro stream _ _
    exact ⟨⟨0, stream, rfl⟩, fun _ => ⟨stream, rfl⟩⟩
  | cons c calls ih =>
    intro stream hle hb
    obtain ⟨stream_id, alloc⟩ := c
    obtain ⟨rv, u, hu⟩ := add_pushed_stream_returns stream stream_id alloc hle hb
    obtain ⟨hle', hb'⟩ := add_pushed_stream_valid stream u stream_id rv alloc hu
    obtain ⟨⟨n, s, hns⟩, hall⟩ := ih u (hle' hle) (hb' hb)
    refine ⟨⟨if rv = 0 then n + 1 else n, s,
      by simp only [add_pushed_streams, hu, hns, Option.map_some']⟩, ?_⟩
    intro hok
    obtain ⟨t, ht⟩ := hall (fun c hc => hok c (List.mem_cons_of_mem _ hc))
    have hrv : rv = 0 := by
      rcases add_pushed_stream_ret stream u stream_id rv alloc hu with h0 | ⟨-, -, -, hnone⟩
      · exact h0
      · exact absurd hnone (hok (stream_id, alloc) (List.mem_cons_self _ _))
    exact ⟨t, by simp only [add_pushed_streams, hu, ht, Option.map_some', hrv, if_true,
      List.length_cons]⟩

/-! ## Claims on the deferred slot and on initialisation -/

/-- C1. At most one deferred DATA item: in every stream state reached from
`spdylay_stream_init` by a sequence of shutdown, add_pushed_stream, defer_data
and detach_deferred_data calls that all complete normally, the deferred slot
holds the item passed to the most recent defer_data call that no
detach_deferred_data call has followed, and is empty when there is no such
call; so it is either empty or holds that one item, and no defer_data or
detach_deferred_data call was made after the call that deferred it. -/
theorem deferred_slot_holds_most_recent_item (stream : spdylay_stream) (stream_id : Int)
    (flags pri : Nat) (initial_state : spdylay_stream_state) (stream_user_data : Nat)
    (cs : List stream_call) (s : spdylay_stream)
    (h : exec_calls
      (spdylay_stream_init stream stream_id flags pri initial_state stream_user_data) cs
        = some s) :
    s.deferred_data = pending_deferred cs ∧
    (s.deferred_data = NULL ∨
      ∃ before after, cs = before ++ stream_call.defer_data s.deferred_data :: after ∧
        ∀ c ∈ after, (∀ d, c ≠ .defer_data d) ∧ c ≠ .detach_deferred_data) :=
  exec_calls_deferred_data _ (by simp [spdylay_stream_init]) cs s h

/-- C1 at a concrete input: after the calls of `sample_calls` on a fresh stream
the slot holds item 200, the one deferred after the resume. -/
theorem deferred_slot_holds_most_recent_item_witness :
    exec_calls (spdylay_stream_init stale_stream 1 0 0 .SPDYLAY_STREAM_OPENING 0) sample_calls
      = some (sample_result 0) ∧
    (sample_result 0).deferred_data = 200 ∧
    (sample_result 0).deferred_data = pending_deferred sample_calls :=
  ⟨by decide, rfl,
    (deferred_slot_holds_most_recent_item stale_stream 1 0 0 .SPDYLAY_STREAM_OPENING 0
      sample_calls (sample_result 0) (by decide)).1⟩

/-- C2. The function spdylay_stream_defer_data never replaces an already
deferred item: when the deferred slot is empty the assertion holds, the call
returns and the slot then holds exactly the item passed, every other member
being as before; when the slot is occupied the assertion fails and the call
does not return.  The assertion holds on every stream fresh from
spdylay_stream_init and on every stream just after
spdylay_stream_detach_deferred_data. -/
theorem defer_data_never_replaces (stream : spdylay_stream) (data : Nat) :
    (stream.deferred_data = NULL →
      ∃ s, spdylay_stream_defer_data stream data = some s ∧ s.deferred_data = data ∧
        s = { stream with deferred_data := data }) ∧
    (stream.deferred_data ≠ NULL → spdylay_stream_defer_data stream data = none) ∧
    (∀ stream_id flags pri initial_state stream_user_data,
      ∃ s, spdylay_stream_defer_data
          (spdylay_stream_init stream stream_id flags pri initial_state stream_user_data) data
            = some s ∧ s.deferred_data = data) ∧
    (∃ s, spdylay_stream_defer_data (spdylay_stream_detach_deferred_data stream) data = some s ∧
      s.deferred_data = data) := by
  refine ⟨fun h => ⟨_, if_pos h, rfl, rfl⟩, fun h => if_neg h, ?_, ?_⟩
  · intro stream_id flags pri initial_state stream_user_data
    exact ⟨_, if_pos rfl, rfl⟩
  · exact ⟨_, if_pos rfl, rfl⟩

/-- C2 at concrete inputs: deferring item 200 on a fresh stream stores it, and
deferring item 300 on top of it does not return. -/
theorem defer_data_never_replaces_witness :
    (∃ s, spdylay_stream_defer_data
        (spdylay_stream_init stale_stream 1 0 0 .SPDYLAY_STREAM_OPENING 0) 200 = some s ∧
      s.deferred_data = 200) ∧
    spdylay_stream_defer_data
      { spdylay_stream_init stale_stream 1 0 0 .SPDYLAY_STREAM_OPENING 0 with
        deferred_data := 200 } 300 = none :=
  ⟨(defer_data_never_replaces stale_stream 200).2.2.1 1 0 0 .SPDYLAY_STREAM_OPENING 0,
   (defer_data_never_replaces
      { spdylay_stream_init stale_stream 1 0 0 .SPDYLAY_STREAM_OPENING 0 with
        deferred_data := 200 } 300).2.1 (by decide)⟩

/-- C3. For every stream_id, flags, pri, initial_state and stream_user_data the
stream that spdylay_stream_init produces has exactly those values in its
stream_id, flags, pri, state and stream_user_data members, shut flags
SPDYLAY_SHUT_NONE, a pushed-stream list that is the null pointer with length 0
and capacity 0 (so it lists no stream), and an empty deferred slot; the result
is the same whatever the record held before. -/
theorem stream_init_sets_every_member (stream other : spdylay_stream) (stream_id : Int)
    (flags pri : Nat) (initial_state : spdylay_stream_state) (stream_user_data : Nat) :
    (spdylay_stream_init stream stream_id flags pri initial_state stream_user_data).stream_id
      = stream_id ∧
    (spdylay_stream_init stream stream_id flags pri initial_state stream_user_data).flags
      = flags ∧
    (spdylay_stream_init stream stream_id flags pri initial_state stream_user_data).pri
      = pri ∧
    (spdylay_stream_init stream stream_id flags pri initial_state stream_user_data).state
      = initial_state ∧
    (spdylay_stream_init stream stream_id flags pri initial_state
      stream_user_data).stream_user_data = stream_user_data ∧
    (spdylay_stream_init stream stream_id flags pri initial_state stream_user_data).shut_flags
      = spdylay_shut_flag.SPDYLAY_SHUT_NONE.val ∧
    (spdylay_stream_init stream stream_id flags pri initial_state
      stream_user_data).pushed_streams = none ∧
    (spdylay_stream_init stream stream_id flags pri initial_state
      stream_user_data).pushed_streams_length = 0 ∧
    (spdylay_stream_init stream stream_id flags pri initial_state
      stream_user_data).pushed_streams_capacity = 0 ∧
    pushed_list (spdylay_stream_init stream stream_id flags pri initial_state
      stream_user_data) = some [] ∧
    (spdylay_stream_init stream stream_id flags pri initial_state
      stream_user_data).deferred_data = NULL ∧
    spdylay_stream_init stream stream_id flags pri initial_state stream_user_data
      = spdylay_stream_init other stream_id flags pri initial_state stream_user_data := by
  refine ⟨rfl, rfl, rfl, rfl, rfl, rfl, rfl, rfl, rfl, ?_, rfl, rfl⟩
  simp [pushed_list, spdylay_stream_init]

/-! ## Claims on the pushed-stream list -/

/-- C4. A pushed stream ID is in its parent's pushed-stream list after it is
added: for every stream with pushed_streams_length <= pushed_streams_capacity
whose list can be read, and every stream_id, when
spdylay_stream_add_pushed_stream returns 0 the new list is the old list with
stream_id appended at the end: every earlier entry keeps its value and its
index, also across a reallocation, the entry at the old length is stream_id,
and pushed_streams_length has grown by exactly 1. -/
theorem add_pushed_stream_appends (stream stream' : spdylay_stream) (stream_id : Int)
    (alloc : Option (List Int)) (old : List Int)
    (_hle : stream.pushed_streams_length ≤ stream.pushed_streams_capacity)
    (hret : spdylay_stream_add_pushed_stream stream stream_id alloc = some (0, stream'))
    (hold : pushed_list stream = some old) :
    ∃ new, pushed_list stream' = some new ∧ new = old ++ [stream_id] ∧
      (∀ i, i < stream.pushed_streams_length → new[i]? = old[i]?) ∧
      new[stream.pushed_streams_length]? = some stream_id ∧
      new.length = stream'.pushed_streams_length ∧
      stream'.pushed_streams_length = stream.pushed_streams_length + 1 := by
  obtain ⟨hnew, hlen, hinc⟩ := add_pushed_stream_list stream stream' stream_id alloc old hret hold
  refine ⟨old ++ [stream_id], hnew, rfl, ?_, ?_, ?_, hinc⟩
  · intro i hi
    rw [List.getElem?_append_left (by omega)]
  · rw [← hlen]
    simp
  · rw [hinc, ← hlen]
    simp

/-- C4 at a concrete input: adding stream 12 to a full list of five reallocates
to ten cells and gives the six-entry list. -/
theorem add_pushed_stream_appends_witness :
    spdylay_stream_add_pushed_stream full_stream 12 (some [0, 0, 0, 0, 0, 0, -1, -1, -1, -1])
      = some (0, grown_stream (-1)) ∧
    ∃ new, pushed_list (grown_stream (-1)) = some new ∧
      new = [2, 4, 6, 8, 10] ++ [12] ∧
      (∀ i, i < full_stream.pushed_streams_length → new[i]? = [2, 4, 6, 8, 10][i]?) ∧
      new[full_stream.pushed_streams_length]? = some 12 ∧
      new.length = (grown_stream (-1)).pushed_streams_length ∧
      (grown_stream (-1)).pushed_streams_length = full_stream.pushed_streams_length + 1 :=
  ⟨by decide,
    add_pushed_stream_appends full_stream (grown_stream (-1)) 12
      (some [0, 0, 0, 0, 0, 0, -1, -1, -1, -1]) [2, 4, 6, 8, 10]
      (by decide) (by decide) (by decide)⟩

/-! ## Claims on the shut flags and on the creation-time members -/

/-- C5. Both directions shut means RDWR, in any order: on a stream fresh from
spdylay_stream_init every finite sequence of spdylay_stream_shutdown calls
completes, and afterwards the shut flags are the bitwise OR of all the flags
passed; the resulting stream is the same for every reordering of the calls;
the shut flags equal SPDYLAY_SHUT_RDWR if and only if some call shut the read
half and some call shut the write half; and the value is always one of none,
RD, WR, RDWR. -/
theorem shutdown_accumulates_flags (stream : spdylay_stream) (stream_id : Int)
    (flags pri : Nat) (initial_state : spdylay_stream_state) (stream_user_data : Nat)
    (shuts : List spdylay_shut_flag) :
    ∃ s, exec_calls
        (spdylay_stream_init stream stream_id flags pri initial_state stream_user_data)
        (shuts.map stream_call.shutdown) = some s ∧
      s.shut_flags = shut_flags_or shuts ∧
      (∀ shuts', shuts.Perm shuts' →
        exec_calls
          (spdylay_stream_init stream stream_id flags pri initial_state stream_user_data)
          (shuts'.map stream_call.shutdown) = some s) ∧
      (s.shut_flags = spdylay_shut_flag.SPDYLAY_SHUT_RDWR.val ↔
        (∃ f ∈ shuts, f.shuts_rd = true) ∧ (∃ f ∈ shuts, f.shuts_wr = true)) ∧
      s.shut_flags ∈ [spdylay_shut_flag.SPDYLAY_SHUT_NONE.val,
        spdylay_shut_flag.SPDYLAY_SHUT_RD.val, spdylay_shut_flag.SPDYLAY_SHUT_WR.val,
        spdylay_shut_flag.SPDYLAY_SHUT_RDWR.val] := by
  have h0 : (spdylay_stream_init stream stream_id flags pri initial_state
      stream_user_data).shut_flags = 0 := rfl
  refine ⟨_, exec_calls_shutdown shuts _, ?_, ?_, ?_, ?_⟩
  · simp [h0]
  · intro shuts' hp
    rw [exec_calls_shutdown shuts', shut_flags_or_perm shuts shuts' hp]
  · simp only [h0, Nat.zero_or]
    rw [rdwr_iff_both_bits _ (shut_flags_or_lt shuts), shut_flags_or_rd, shut_flags_or_wr]
  · simp only [h0, Nat.zero_or]
    have hlt := shut_flags_or_lt shuts
    generalize shut_flags_or shuts = x at hlt
    interval_cases x <;> decide

/-- C6. A half-close is never undone: once spdylay_stream_shutdown has set the
bits of a flag in the shut flags of a stream, they remain set after any
sequence of shutdown, add_pushed_stream, defer_data and detach_deferred_data
calls that complete normally, as does every bit that was set before; the set
of shut directions only grows. -/
theorem half_close_never_undone (stream : spdylay_stream) (flag : spdylay_shut_flag)
    (cs : List stream_call) (s : spdylay_stream)
    (h : exec_calls (spdylay_stream_shutdown stream flag) cs = some s) :
    s.shut_flags &&& flag.val = flag.val ∧
    (flag.shuts_rd = true → s.shut_flags.testBit 0 = true) ∧
    (flag.shuts_wr = true → s.shut_flags.testBit 1 = true) ∧
    (∀ i, stream.shut_flags.testBit i = true → s.shut_flags.testBit i = true) ∧
    (∀ cs' s', exec_calls s cs' = some s' →
      ∀ i, s.shut_flags.testBit i = true → s'.shut_flags.testBit i = true) := by
  have hbits := (exec_calls_frame cs _ s h).2
  have hflag : ∀ i, flag.val.testBit i = true → s.shut_flags.testBit i = true := by
    intro i hi
    apply hbits
    simp [spdylay_stream_shutdown, hi]
  refine ⟨?_, ?_, ?_, ?_, ?_⟩
  · apply Nat.eq_of_testBit_eq
    intro i
    rw [Nat.testBit_and]
    cases hi : flag.val.testBit i with
    | false => simp
    | true => simp [hflag i hi]
  · intro hrd
    apply hflag
    cases flag <;> first | rfl | exact absurd hrd (by decide)
  · intro hwr
    apply hflag
    cases flag <;> first | rfl | exact absurd hwr (by decide)
  · intro i hi
    apply hbits
    simp [spdylay_stream_shutdown, hi]
  · intro cs' s' h'
    exact (exec_calls_frame cs' s s' h').2

/-- C6 at a concrete input: the read half shut first stays shut through a run
of calls that defers, resumes, pushes a stream and shuts the write half. -/
theorem half_close_never_undone_witness :
    (spdylay_stream_shutdown
        (spdylay_stream_init stale_stream 1 0 0 .SPDYLAY_STREAM_OPENING 0)
        .SPDYLAY_SHUT_RD).shut_flags = 1 ∧
    exec_calls
        (spdylay_stream_shutdown
          (spdylay_stream_init stale_stream 1 0 0 .SPDYLAY_STREAM_OPENING 0) .SPDYLAY_SHUT_RD)
        sample_calls = some (sample_result 0) ∧
    (sample_result 0).shut_flags &&& spdylay_shut_flag.SPDYLAY_SHUT_RD.val
        = spdylay_shut_flag.SPDYLAY_SHUT_RD.val :=
  ⟨rfl, by decide,
    (half_close_never_undone
      (spdylay_stream_init stale_stream 1 0 0 .SPDYLAY_STREAM_OPENING 0) .SPDYLAY_SHUT_RD
      sample_calls (sample_result 0) (by decide)).1⟩

/-- C7. The user cookie and the identity of a stream are fixed at creation:
the stream_user_data, stream_id, flags, pri and state of a stream are left
unchanged by every call of spdylay_stream_shutdown, of
spdylay_stream_add_pushed_stream whatever it returns, of
spdylay_stream_defer_data and of spdylay_stream_detach_deferred_data; so after
any sequence of such calls on a stream fresh from spdylay_stream_init these
members hold the values passed to spdylay_stream_init. -/
theorem creation_members_fixed (stream : spdylay_stream) :
    (∀ flag, same_identity (spdylay_stream_shutdown stream flag) stream) ∧
    (∀ stream_id alloc rv s,
      spdylay_stream_add_pushed_stream stream stream_id alloc = some (rv, s) →
        same_identity s stream) ∧
    (∀ data s, spdylay_stream_defer_data stream data = some s → same_identity s stream) ∧
    same_identity (spdylay_stream_detach_deferred_data stream) stream ∧
    (∀ stream_id flags pri initial_state stream_user_data cs s,
      exec_calls
        (spdylay_stream_init stream stream_id flags pri initial_state stream_user_data) cs
          = some s →
        s.stream_user_data = stream_user_data ∧ s.stream_id = stream_id ∧
        s.flags = flags ∧ s.pri = pri ∧ s.state = initial_state) := by
  refine ⟨fun _ => ⟨rfl, rfl, rfl, rfl, rfl⟩, ?_, ?_, ⟨rfl, rfl, rfl, rfl, rfl⟩, ?_⟩
  · intro stream_id alloc rv s h
    obtain ⟨h1, h2, h3, h4, -, h6, -⟩ := add_pushed_stream_frame stream s stream_id rv alloc h
    exact ⟨h6, h1, h3, h4, h2⟩
  · intro data s h
    exact (exec_call_frame stream s (.defer_data data) h).1
  · intro stream_id flags pri initial_state stream_user_data cs s h
    exact (exec_calls_frame cs _ s h).1

/-- C7 at concrete inputs: a failing and a succeeding add_pushed_stream on a
full list, and a run of calls on a fresh stream with cookie 4096. -/
theorem creation_members_fixed_witness :
    same_identity full_stream full_stream ∧
    same_identity (grown_stream 0) full_stream ∧
    (exec_calls (spdylay_stream_init stale_stream 1 0 0 .SPDYLAY_STREAM_OPENING 4096)
        sample_calls = some (sample_result 4096) ∧
      (sample_result 4096).stream_user_data = 4096) :=
  ⟨(creation_members_fixed full_stream).2.1 12 none spdylay_error.SPDYLAY_ERR_NOMEM.val
      full_stream (by decide),
   (creation_members_fixed full_stream).2.1 12 (some []) 0 (grown_stream 0) (by decide),
   by decide,
   ((creation_members_fixed stale_stream).2.2.2.2 1 0 0 .SPDYLAY_STREAM_OPENING 4096
      sample_calls (sample_result 4096) (by decide)).1⟩

/-! ## Claims on the window size and on the constants of `spdylay.h` -/

/-- C8, as stated, fails: the stream that spdylay_stream_init produces for
stream 1 (flags 0, priority 0, state OPENING, no user cookie) has no member
that holds the window size 65536; each of its integer members is 1 or 0. -/
theorem stream_init_window_size_counterexample :
    (spdylay_stream_init stale_stream 1 0 0 .SPDYLAY_STREAM_OPENING NULL).scalars
      = [1, 0, 0, 0, 0, 0, 0, 0] ∧
    ¬ ∃ w ∈ (spdylay_stream_init stale_stream 1 0 0 .SPDYLAY_STREAM_OPENING NULL).scalars,
      w = 65536 := by
  decide

/-- C8, amended. A newly created stream carries no flow-control window size:
spdylay_stream_init takes no window size and no SETTINGS value, and the stream
it produces consists of the stream_id, state, flags, pri and stream_user_data
passed in, shut flags 0, a null pushed-stream list of length 0 and capacity 0
and an empty deferred slot, so every integer member is one of the arguments
or 0. -/
theorem stream_init_establishes_no_window_size (stream : spdylay_stream) (stream_id : Int)
    (flags pri : Nat) (initial_state : spdylay_stream_state) (stream_user_data : Nat) :
    spdylay_stream_init stream stream_id flags pri initial_state stream_user_data
      = { stream_id := stream_id, state := initial_state, flags := flags, pri := pri,
          shut_flags := 0, pushed_streams := none, pushed_streams_length := 0,
          pushed_streams_capacity := 0, stream_user_data := stream_user_data,
          deferred_data := 0 } ∧
    ∀ w ∈ (spdylay_stream_init stream stream_id flags pri initial_state
        stream_user_data).scalars,
      w = stream_id ∨ w = flags ∨ w = pri ∨ w = stream_user_data ∨ w = 0 := by
  refine ⟨rfl, ?_⟩
  intro w hw
  simp only [spdylay_stream.scalars, spdylay_stream_init, spdylay_shut_flag.val, NULL,
    List.mem_cons, List.mem_singleton, List.not_mem_nil, or_false] at hw
  rcases hw with h | h | h | h | h | h | h | h <;> simp [h]

/-- C9. The control frame type codes of spdylay_frame_type are the wire values
of the specification, SYN_STREAM=1, SYN_REPLY=2, RST_STREAM=3, SETTINGS=4,
NOOP=5, PING=6, GOAWAY=7, HEADERS=8, WINDOW_UPDATE=9; the constants are
pairwise distinct; and the library-internal tag SPDYLAY_DATA is 100, which no
control frame type has. -/
theorem frame_type_codes :
    spdylay_frame_type.SPDYLAY_SYN_STREAM.val = 1 ∧
    spdylay_frame_type.SPDYLAY_SYN_REPLY.val = 2 ∧
    spdylay_frame_type.SPDYLAY_RST_STREAM.val = 3 ∧
    spdylay_frame_type.SPDYLAY_SETTINGS.val = 4 ∧
    spdylay_frame_type.SPDYLAY_NOOP.val = 5 ∧
    spdylay_frame_type.SPDYLAY_PING.val = 6 ∧
    spdylay_frame_type.SPDYLAY_GOAWAY.val = 7 ∧
    spdylay_frame_type.SPDYLAY_HEADERS.val = 8 ∧
    spdylay_frame_type.SPDYLAY_WINDOW_UPDATE.val = 9 ∧
    spdylay_frame_type.SPDYLAY_DATA.val = 100 ∧
    (∀ a b : spdylay_frame_type, a.val = b.val → a = b) ∧
    (∀ t : spdylay_frame_type, t.is_ctrl = true ↔ 1 ≤ t.val ∧ t.val ≤ 9) ∧
    (∀ t : spdylay_frame_type, t.is_ctrl = true →
      t.val ≠ spdylay_frame_type.SPDYLAY_DATA.val) := by
  refine ⟨rfl, rfl, rfl, rfl, rfl, rfl, rfl, rfl, rfl, rfl, ?_, ?_, ?_⟩
  · intro a b h
    cases a <;> cases b <;> first | rfl | exact absurd h (by decide)
  · intro t
    cases t <;> decide
  · intro t ht
    cases t <;> first | decide | exact absurd ht (by decide)

/-- C10. The RST_STREAM status codes of spdylay_status_code take the values 1
to 11 in the order the specification enumerates them, PROTOCOL_ERROR=1,
INVALID_STREAM=2, REFUSED_STREAM=3, UNSUPPORTED_VERSION=4, CANCEL=5,
INTERNAL_ERROR=6, FLOW_CONTROL_ERROR=7, STREAM_IN_USE=8,
STREAM_ALREADY_CLOSED=9, INVALID_CREDENTIALS=10, FRAME_TOO_LARGE=11; every
value from 1 to 11 is the value of exactly one constant; and SPDYLAY_OK is 0,
outside that range. -/
theorem status_code_values :
    spdylay_status_code.SPDYLAY_PROTOCOL_ERROR.val = 1 ∧
    spdylay_status_code.SPDYLAY_INVALID_STREAM.val = 2 ∧
    spdylay_status_code.SPDYLAY_REFUSED_STREAM.val = 3 ∧
    spdylay_status_code.SPDYLAY_UNSUPPORTED_VERSION.val = 4 ∧
    spdylay_status_code.SPDYLAY_CANCEL.val = 5 ∧
    spdylay_status_code.SPDYLAY_INTERNAL_ERROR.val = 6 ∧
    spdylay_status_code.SPDYLAY_FLOW_CONTROL_ERROR.val = 7 ∧
    spdylay_status_code.SPDYLAY_STREAM_IN_USE.val = 8 ∧
    spdylay_status_code.SPDYLAY_STREAM_ALREADY_CLOSED.val = 9 ∧
    spdylay_status_code.SPDYLAY_INVALID_CREDENTIALS.val = 10 ∧
    spdylay_status_code.FRAME_TOO_LARGE.val = 11 ∧
    rst_stream_status_codes.map spdylay_status_code.val = [1, 2, 3, 4, 5, 6, 7, 8, 9, 10, 11] ∧
    (∀ n : Int, 1 ≤ n ∧ n ≤ 11 → ∃! c : spdylay_status_code, c.val = n) ∧
    spdylay_status_code.SPDYLAY_OK.val = 0 ∧
    ¬ (1 ≤ spdylay_status_code.SPDYLAY_OK.val ∧ spdylay_status_code.SPDYLAY_OK.val ≤ 11) := by
  refine ⟨rfl, rfl, rfl, rfl, rfl, rfl, rfl, rfl, rfl, rfl, rfl, rfl, ?_, rfl, by decide⟩
  have hinj : ∀ a b : spdylay_status_code, a.val = b.val → a = b := by
    intro a b h
    cases a <;> cases b <;> first | rfl | exact absurd h (by decide)
  rintro n ⟨h1, h2⟩
  have hex : ∃ c : spdylay_status_code, c.val = n := by
    interval_cases n
    · exact ⟨.SPDYLAY_PROTOCOL_ERROR, rfl⟩
    · exact ⟨.SPDYLAY_INVALID_STREAM, rfl⟩
    · exact ⟨.SPDYLAY_REFUSED_STREAM, rfl⟩
    · exact ⟨.SPDYLAY_UNSUPPORTED_VERSION, rfl⟩
    · exact ⟨.SPDYLAY_CANCEL, rfl⟩
    · exact ⟨.SPDYLAY_INTERNAL_ERROR, rfl⟩
    · exact ⟨.SPDYLAY_FLOW_CONTROL_ERROR, rfl⟩
    · exact ⟨.SPDYLAY_STREAM_IN_USE, rfl⟩
    · exact ⟨.SPDYLAY_STREAM_ALREADY_CLOSED, rfl⟩
    · exact ⟨.SPDYLAY_INVALID_CREDENTIALS, rfl⟩
    · exact ⟨.FRAME_TOO_LARGE, rfl⟩
  obtain ⟨c, hc⟩ := hex
  exact ⟨c, hc, fun d hd => hinj d c (hd.trans hc.symm)⟩

/-! ## Claims on the flag, settings, priority and error constants -/

/-- C11. The flag constants have the wire values of the specification: control
FIN=0x1 and UNIDIRECTIONAL=0x2, DATA FIN=0x1, SETTINGS CLEAR_SETTINGS=0x1,
per-entry PERSIST_VALUE=0x1 and PERSISTED=0x2.  Within each flag set the NONE
value is 0 and is the only 0, every other flag is a single bit, and two
different flags share no bit, so that flags combine by bitwise OR and each can
be tested in the combination. -/
theorem flag_constants :
    (spdylay_ctrl_flag.SPDYLAY_CTRL_FLAG_FIN.val = 0x1 ∧
     spdylay_ctrl_flag.SPDYLAY_CTRL_FLAG_UNIDIRECTIONAL.val = 0x2 ∧
     spdylay_data_flag.SPDYLAY_DATA_FLAG_FIN.val = 0x1 ∧
     spdylay_settings_flag.SPDYLAY_FLAG_SETTINGS_CLEAR_SETTINGS.val = 0x1 ∧
     spdylay_settings_id_flag.SPDYLAY_ID_FLAG_SETTINGS_PERSIST_VALUE.val = 0x1 ∧
     spdylay_settings_id_flag.SPDYLAY_ID_FLAG_SETTINGS_PERSISTED.val = 0x2) ∧
    (spdylay_ctrl_flag.SPDYLAY_CTRL_FLAG_NONE.val = 0 ∧
     spdylay_data_flag.SPDYLAY_DATA_FLAG_NONE.val = 0 ∧
     spdylay_settings_flag.SPDYLAY_FLAG_SETTINGS_NONE.val = 0 ∧
     spdylay_settings_id_flag.SPDYLAY_ID_FLAG_SETTINGS_NONE.val = 0) ∧
    (∀ f : spdylay_ctrl_flag, f ≠ .SPDYLAY_CTRL_FLAG_NONE → ∃ k, f.val = 2 ^ k) ∧
    (∀ f : spdylay_data_flag, f ≠ .SPDYLAY_DATA_FLAG_NONE → ∃ k, f.val = 2 ^ k) ∧
    (∀ f : spdylay_settings_flag, f ≠ .SPDYLAY_FLAG_SETTINGS_NONE → ∃ k, f.val = 2 ^ k) ∧
    (∀ f : spdylay_settings_id_flag, f ≠ .SPDYLAY_ID_FLAG_SETTINGS_NONE →
      ∃ k, f.val = 2 ^ k) ∧
    (∀ f g : spdylay_ctrl_flag, f ≠ g → f.val ≠ g.val ∧ f.val &&& g.val = 0) ∧
    (∀ f g : spdylay_data_flag, f ≠ g → f.val ≠ g.val ∧ f.val &&& g.val = 0) ∧
    (∀ f g : spdylay_settings_flag, f ≠ g → f.val ≠ g.val ∧ f.val &&& g.val = 0) ∧
    (∀ f g : spdylay_settings_id_flag, f ≠ g → f.val ≠ g.val ∧ f.val &&& g.val = 0) ∧
    ((spdylay_ctrl_flag.SPDYLAY_CTRL_FLAG_FIN.val |||
        spdylay_ctrl_flag.SPDYLAY_CTRL_FLAG_UNIDIRECTIONAL.val) &&&
        spdylay_ctrl_flag.SPDYLAY_CTRL_FLAG_FIN.val
          = spdylay_ctrl_flag.SPDYLAY_CTRL_FLAG_FIN.val ∧
     (spdylay_ctrl_flag.SPDYLAY_CTRL_FLAG_FIN.val |||
        spdylay_ctrl_flag.SPDYLAY_CTRL_FLAG_UNIDIRECTIONAL.val) &&&
        spdylay_ctrl_flag.SPDYLAY_CTRL_FLAG_UNIDIRECTIONAL.val
          = spdylay_ctrl_flag.SPDYLAY_CTRL_FLAG_UNIDIRECTIONAL.val ∧
     (spdylay_settings_id_flag.SPDYLAY_ID_FLAG_SETTINGS_PERSIST_VALUE.val |||
        spdylay_settings_id_flag.SPDYLAY_ID_FLAG_SETTINGS_PERSISTED.val) &&&
        spdylay_settings_id_flag.SPDYLAY_ID_FLAG_SETTINGS_PERSIST_VALUE.val
          = spdylay_settings_id_flag.SPDYLAY_ID_FLAG_SETTINGS_PERSIST_VALUE.val ∧
     (spdylay_settings_id_flag.SPDYLAY_ID_FLAG_SETTINGS_PERSIST_VALUE.val |||
        spdylay_settings_id_flag.SPDYLAY_ID_FLAG_SETTINGS_PERSISTED.val) &&&
        spdylay_settings_id_flag.SPDYLAY_ID_FLAG_SETTINGS_PERSISTED.val
          = spdylay_settings_id_flag.SPDYLAY_ID_FLAG_SETTINGS_PERSISTED.val) := by
  refine ⟨⟨rfl, rfl, rfl, rfl, rfl, rfl⟩, ⟨rfl, rfl, rfl, rfl⟩, ?_, ?_, ?_, ?_, ?_, ?_, ?_, ?_,
    by decide⟩
  · intro f hf
    cases f
    · exact absurd rfl hf
    · exact ⟨0, rfl⟩
    · exact ⟨1, rfl⟩
  · intro f hf
    cases f
    · exact absurd rfl hf
    · exact ⟨0, rfl⟩
  · intro f hf
    cases f
    · exact absurd rfl hf
    · exact ⟨0, rfl⟩
  · intro f hf
    cases f
    · exact absurd rfl hf
    · exact ⟨0, rfl⟩
    · exact ⟨1, rfl⟩
  · intro f g h
    cases f <;> cases g <;> first | exact absurd rfl h | decide
  · intro f g h
    cases f <;> cases g <;> first | exact absurd rfl h | decide
  · intro f g h
    cases f <;> cases g <;> first | exact absurd rfl h | decide
  · intro f g h
    cases f <;> cases g <;> first | exact absurd rfl h | decide

/-- C12, as stated, fails: the error code for a zlib failure, SPDYLAY_ERR_ZLIB
= -502, is not less than SPDYLAY_ERR_FATAL = -900. -/
theorem err_zlib_not_below_fatal :
    spdylay_error.SPDYLAY_ERR_ZLIB.val = -502 ∧
    spdylay_error.SPDYLAY_ERR_FATAL.val = -900 ∧
    ¬ spdylay_error.SPDYLAY_ERR_ZLIB.val < spdylay_error.SPDYLAY_ERR_FATAL.val := by
  decide

/-- C12, amended. Of the errors the specification classes as fatal at session
level, the codes for out-of-memory and for a user-callback failure
(SPDYLAY_ERR_NOMEM, SPDYLAY_ERR_CALLBACK_FAILURE) are each less than
SPDYLAY_ERR_FATAL; the code for a zlib failure, SPDYLAY_ERR_ZLIB, is greater
than SPDYLAY_ERR_FATAL, as is the would-block code SPDYLAY_ERR_WOULDBLOCK. -/
theorem fatal_class_of_session_errors :
    spdylay_error.SPDYLAY_ERR_NOMEM.val < spdylay_error.SPDYLAY_ERR_FATAL.val ∧
    spdylay_error.SPDYLAY_ERR_CALLBACK_FAILURE.val < spdylay_error.SPDYLAY_ERR_FATAL.val ∧
    spdylay_error.SPDYLAY_ERR_FATAL.val < spdylay_error.SPDYLAY_ERR_ZLIB.val ∧
    spdylay_error.SPDYLAY_ERR_FATAL.val < spdylay_error.SPDYLAY_ERR_WOULDBLOCK.val ∧
    ¬ spdylay_error.SPDYLAY_ERR_WOULDBLOCK.val < spdylay_error.SPDYLAY_ERR_FATAL.val := by
  decide

/-- C13. Settings IDs range over 1..8: every constant of spdylay_settings_id
lies between 1 and SPDYLAY_SETTINGS_MAX, SPDYLAY_SETTINGS_MAX is 8, every value
from 1 to 8 is the ID of exactly one setting, MAX_CONCURRENT_STREAMS is 4 and
INITIAL_WINDOW_SIZE is 7. -/
theorem settings_id_range :
    (∀ id : spdylay_settings_id, 1 ≤ id.val ∧ id.val ≤ SPDYLAY_SETTINGS_MAX) ∧
    SPDYLAY_SETTINGS_MAX = 8 ∧
    (∀ n : Int, 1 ≤ n ∧ n ≤ 8 → ∃! id : spdylay_settings_id, id.val = n) ∧
    spdylay_settings_id.SPDYLAY_SETTINGS_MAX_CONCURRENT_STREAMS.val = 4 ∧
    spdylay_settings_id.SPDYLAY_SETTINGS_INITIAL_WINDOW_SIZE.val = 7 := by
  refine ⟨?_, rfl, ?_, rfl, rfl⟩
  · intro id
    cases id <;> decide
  · have hinj : ∀ a b : spdylay_settings_id, a.val = b.val → a = b := by
      intro a b h
      cases a <;> cases b <;> first | rfl | exact absurd h (by decide)
    rintro n ⟨h1, h2⟩
    have hex : ∃ id : spdylay_settings_id, id.val = n := by
      interval_cases n
      · exact ⟨.SPDYLAY_SETTINGS_UPLOAD_BANDWIDTH, rfl⟩
      · exact ⟨.SPDYLAY_SETTINGS_DOWNLOAD_BANDWIDTH, rfl⟩
      · exact ⟨.SPDYLAY_SETTINGS_ROUND_TRIP_TIME, rfl⟩
      · exact ⟨.SPDYLAY_SETTINGS_MAX_CONCURRENT_STREAMS, rfl⟩
      · exact ⟨.SPDYLAY_SETTINGS_CURRENT_CWND, rfl⟩
      · exact ⟨.SPDYLAY_SETTINGS_DOWNLOAD_RETRANS_RATE, rfl⟩
      · exact ⟨.SPDYLAY_SETTINGS_INITIAL_WINDOW_SIZE, rfl⟩
      · exact ⟨.SPDYLAY_SETTINGS_CLIENT_CERTIFICATE_VECTOR_SIZE, rfl⟩
    obtain ⟨c, hc⟩ := hex
    exact ⟨c, hc, fun d hd => hinj d c (hd.trans hc.symm)⟩

/-- C14. The lowest priority of each protocol version is the largest value of
its priority field: SPDYLAY_SPDY2_PRI_LOWEST = 3 = 2^2 - 1 for version
SPDYLAY_PROTO_SPDY2 = 2, whose field has 2 bits, and SPDYLAY_SPDY3_PRI_LOWEST =
7 = 2^3 - 1 for version SPDYLAY_PROTO_SPDY3 = 3, whose field has 3 bits; so
every priority valid for SPDY/2 is also valid for SPDY/3. -/
theorem pri_lowest_fills_field :
    SPDYLAY_PROTO_SPDY2 = 2 ∧ SPDYLAY_PROTO_SPDY3 = 3 ∧
    syn_stream_pri_bits SPDYLAY_PROTO_SPDY2 = some 2 ∧
    syn_stream_pri_bits SPDYLAY_PROTO_SPDY3 = some 3 ∧
    SPDYLAY_SPDY2_PRI_LOWEST = 3 ∧ SPDYLAY_SPDY2_PRI_LOWEST = 2 ^ 2 - 1 ∧
    SPDYLAY_SPDY3_PRI_LOWEST = 7 ∧ SPDYLAY_SPDY3_PRI_LOWEST = 2 ^ 3 - 1 ∧
    (∀ pri : Nat, pri ≤ SPDYLAY_SPDY2_PRI_LOWEST ↔ pri < 2 ^ 2) ∧
    (∀ pri : Nat, pri ≤ SPDYLAY_SPDY3_PRI_LOWEST ↔ pri < 2 ^ 3) ∧
    (∀ pri : Nat, pri ≤ SPDYLAY_SPDY2_PRI_LOWEST → pri ≤ SPDYLAY_SPDY3_PRI_LOWEST) := by
  refine ⟨rfl, rfl, rfl, rfl, rfl, rfl, rfl, rfl, ?_, ?_, ?_⟩
  · intro pri
    simp only [SPDYLAY_SPDY2_PRI_LOWEST]
    omega
  · intro pri
    simp only [SPDYLAY_SPDY3_PRI_LOWEST]
    omega
  · intro pri h
    simp only [SPDYLAY_SPDY2_PRI_LOWEST, SPDYLAY_SPDY3_PRI_LOWEST] at *
    omega

/-- C15. The errors below SPDYLAY_ERR_FATAL = -900 are exactly those under
which the library cannot go on: a constant of spdylay_error other than
SPDYLAY_ERR_FATAL is less than SPDYLAY_ERR_FATAL if and only if it is
SPDYLAY_ERR_NOMEM or SPDYLAY_ERR_CALLBACK_FAILURE, and every other constant,
among them SPDYLAY_ERR_WOULDBLOCK, SPDYLAY_ERR_EOF and SPDYLAY_ERR_DEFERRED, is
greater than SPDYLAY_ERR_FATAL. -/
theorem errors_below_fatal :
    spdylay_error.SPDYLAY_ERR_FATAL.val = -900 ∧
    (∀ e : spdylay_error, e ≠ .SPDYLAY_ERR_FATAL →
      (e.val < spdylay_error.SPDYLAY_ERR_FATAL.val ↔
        e = .SPDYLAY_ERR_NOMEM ∨ e = .SPDYLAY_ERR_CALLBACK_FAILURE)) ∧
    (∀ e : spdylay_error, e ≠ .SPDYLAY_ERR_FATAL → e ≠ .SPDYLAY_ERR_NOMEM →
      e ≠ .SPDYLAY_ERR_CALLBACK_FAILURE → spdylay_error.SPDYLAY_ERR_FATAL.val < e.val) ∧
    spdylay_error.SPDYLAY_ERR_FATAL.val < spdylay_error.SPDYLAY_ERR_WOULDBLOCK.val ∧
    spdylay_error.SPDYLAY_ERR_FATAL.val < spdylay_error.SPDYLAY_ERR_EOF.val ∧
    spdylay_error.SPDYLAY_ERR_FATAL.val < spdylay_error.SPDYLAY_ERR_DEFERRED.val := by
  refine ⟨rfl, ?_, ?_, by decide, by decide, by decide⟩
  · intro e he
    cases e <;> first | exact absurd rfl he | decide
  · intro e h1 h2 h3
    cases e <;> first | exact absurd rfl h1 | exact absurd rfl h2 | exact absurd rfl h3 | decide

/-- C16. Every error code is negative and unambiguous: each constant of
spdylay_error is less than 0, so it is neither the success value 0 nor a byte
count (which is 0 or more), and no two constants of spdylay_error have the same
value. -/
theorem error_codes_negative_distinct :
    (∀ e : spdylay_error, e.val < 0) ∧
    (∀ e : spdylay_error, e.val ≠ 0 ∧ ∀ count : Nat, e.val ≠ (count : Int)) ∧
    (∀ a b : spdylay_error, a.val = b.val → a = b) := by
  have hneg : ∀ e : spdylay_error, e.val < 0 := by
    intro e
    cases e <;> decide
  refine ⟨hneg, ?_, ?_⟩
  · intro e
    have h := hneg e
    refine ⟨by omega, ?_⟩
    intro count
    omega
  · intro a b h
    cases a <;> cases b <;> first | rfl | exact absurd h (by decide)

/-! ## Claims on failure, growth and bounds of the pushed-stream list -/

/-- C17. The function spdylay_stream_add_pushed_stream is atomic on failure:
when the list is full (pushed_streams_length == pushed_streams_capacity) and
the reallocation fails, the call returns SPDYLAY_ERR_NOMEM = -901 and the
stream is unchanged, the pushed list, its length, its capacity and every other
member being as before the call; and whenever a call returns
SPDYLAY_ERR_NOMEM the stream is unchanged, so the stream ID is not added. -/
theorem add_pushed_stream_atomic_on_failure (stream : spdylay_stream) (stream_id : Int)
    (hfull : stream.pushed_streams_length = stream.pushed_streams_capacity) :
    spdylay_stream_add_pushed_stream stream stream_id none
      = some (spdylay_error.SPDYLAY_ERR_NOMEM.val, stream) ∧
    spdylay_error.SPDYLAY_ERR_NOMEM.val = -901 ∧
    (∀ alloc stream',
      spdylay_stream_add_pushed_stream stream stream_id alloc
        = some (spdylay_error.SPDYLAY_ERR_NOMEM.val, stream') →
      stream' = stream ∧ pushed_list stream' = pushed_list stream ∧
      stream'.pushed_streams_length = stream.pushed_streams_length ∧
      stream'.pushed_streams_capacity = stream.pushed_streams_capacity) := by
  refine ⟨add_pushed_stream_nomem stream stream_id hfull.symm, rfl, ?_⟩
  intro alloc stream' h
  rcases add_pushed_stream_ret stream stream' stream_id _ alloc h with h0 | ⟨-, rfl, -, -⟩
  · exact absurd h0 (by decide)
  · exact ⟨rfl, rfl, rfl, rfl⟩

/-- C17 at a concrete input: adding stream 12 to the full list of five while
the allocator fails returns -901 and leaves the stream as it was. -/
theorem add_pushed_stream_atomic_on_failure_witness :
    spdylay_stream_add_pushed_stream full_stream 12 none = some (-901, full_stream) ∧
    pushed_list full_stream = some [2, 4, 6, 8, 10] :=
  ⟨(add_pushed_stream_atomic_on_failure full_stream 12 (by decide)).1, by decide⟩

/-- C18. The function spdylay_stream_add_pushed_stream fails exactly when it
must grow and cannot: for every stream with pushed_streams_length <=
pushed_streams_capacity (pushed_streams pointing to a block of that capacity)
the call returns either 0 or SPDYLAY_ERR_NOMEM, and it returns
SPDYLAY_ERR_NOMEM if and only if pushed_streams_length ==
pushed_streams_capacity and the allocation fails; whenever
pushed_streams_length < pushed_streams_capacity it returns 0 with the same
result whatever the allocator would decide, and leaves the capacity
unchanged. -/
theorem add_pushed_stream_fails_iff (stream : spdylay_stream) (stream_id : Int)
    (alloc : Option (List Int))
    (hle : stream.pushed_streams_length ≤ stream.pushed_streams_capacity)
    (hb : block_has_capacity stream) :
    (∃ stream', spdylay_stream_add_pushed_stream stream stream_id alloc = some (0, stream') ∨
      spdylay_stream_add_pushed_stream stream stream_id alloc
        = some (spdylay_error.SPDYLAY_ERR_NOMEM.val, stream')) ∧
    ((∃ stream', spdylay_stream_add_pushed_stream stream stream_id alloc
        = some (spdylay_error.SPDYLAY_ERR_NOMEM.val, stream')) ↔
      stream.pushed_streams_length = stream.pushed_streams_capacity ∧ alloc = none) ∧
    (stream.pushed_streams_length < stream.pushed_streams_capacity →
      ∃ stream', (∀ alloc', spdylay_stream_add_pushed_stream stream stream_id alloc'
          = some (0, stream')) ∧
        stream'.pushed_streams_capacity = stream.pushed_streams_capacity) := by
  refine ⟨?_, ?_, ?_⟩
  · obtain ⟨rv, stream', h⟩ := add_pushed_stream_returns stream stream_id alloc hle hb
    rcases add_pushed_stream_ret stream stream' stream_id rv alloc h with rfl | ⟨rfl, -, -, -⟩
    · exact ⟨stream', Or.inl h⟩
    · exact ⟨stream', Or.inr h⟩
  · constructor
    · rintro ⟨stream', h⟩
      rcases add_pushed_stream_ret stream stream' stream_id _ alloc h with h0 | ⟨-, -, hc, hn⟩
      · exact absurd h0 (by decide)
      · exact ⟨hc.symm, hn⟩
    · rintro ⟨hc, rfl⟩
      exact ⟨stream, add_pushed_stream_nomem stream stream_id hc.symm⟩
  · intro hlt
    unfold block_has_capacity at hb
    cases hp : stream.pushed_streams with
    | none =>
      rw [hp] at hb
      simp only [Option.getD_none, List.length_nil] at hb
      omega
    | some cells =>
      rw [hp] at hb
      simp only [Option.getD_some] at hb
      exact ⟨_, fun alloc' => add_pushed_stream_room stream stream_id alloc' cells
        (by omega) hp (by omega), rfl⟩

/-- C18 at a concrete input: on the full list of five the call fails with a
failing allocator, and only then. -/
theorem add_pushed_stream_fails_iff_witness :
    (∃ stream', spdylay_stream_add_pushed_stream full_stream 12 none
        = some (spdylay_error.SPDYLAY_ERR_NOMEM.val, stream')) ↔
      full_stream.pushed_streams_length = full_stream.pushed_streams_capacity ∧
        (none : Option (List Int)) = none :=
  (add_pushed_stream_fails_iff full_stream 12 none (by decide) (by decide)).2.1

/-- C19. The pushed-stream list grows on the schedule 0, 5, 10, 20, ...: a call
that grows the list sets the capacity to 5 when it was 0 and to twice the old
capacity otherwise; on a stream fresh from spdylay_stream_init every call
returns, with 0 when the allocator does not fail; and after any run of calls
of which n returned 0, pushed_streams_length is n and, for n >= 1,
pushed_streams_capacity is the smallest number of the form 5*2^k that is at
least n. -/
theorem pushed_list_growth_schedule (stream : spdylay_stream) (stream_id : Int)
    (flags pri : Nat) (initial_state : spdylay_stream_state) (stream_user_data : Nat)
    (calls : List (Int × Option (List Int))) :
    (∀ t t' : spdylay_stream, ∀ id alloc,
      t.pushed_streams_capacity = t.pushed_streams_length →
      spdylay_stream_add_pushed_stream t id alloc = some (0, t') →
      t'.pushed_streams_capacity
        = if t.pushed_streams_capacity = 0 then 5 else t.pushed_streams_capacity * 2) ∧
    (∃ n s, add_pushed_streams
      (spdylay_stream_init stream stream_id flags pri initial_state stream_user_data) calls
        = some (n, s)) ∧
    ((∀ c ∈ calls, c.2 ≠ none) → ∃ s, add_pushed_streams
      (spdylay_stream_init stream stream_id flags pri initial_state stream_user_data) calls
        = some (calls.length, s)) ∧
    (∀ n s, add_pushed_streams
      (spdylay_stream_init stream stream_id flags pri initial_state stream_user_data) calls
        = some (n, s) →
      s.pushed_streams_length = n ∧
      (1 ≤ n → ∃ k, s.pushed_streams_capacity = 5 * 2 ^ k ∧ n ≤ 5 * 2 ^ k ∧
        ∀ j, n ≤ 5 * 2 ^ j → 5 * 2 ^ k ≤ 5 * 2 ^ j)) := by
  have hinit : on_schedule
      (spdylay_stream_init stream stream_id flags pri initial_state stream_user_data) :=
    Or.inl ⟨rfl, rfl⟩
  have hret := add_pushed_streams_returns calls
    (spdylay_stream_init stream stream_id flags pri initial_state stream_user_data)
    (Nat.le_refl 0) rfl
  refine ⟨?_, hret.1, hret.2, ?_⟩
  · intro t t' id alloc hc h
    obtain ⟨cells, capacity, -, rfl, hcase⟩ := add_pushed_stream_ok _ _ _ _ h
    rcases hcase with ⟨hne, -, -⟩ | ⟨-, rfl, -⟩
    · exact absurd hc hne
    · rfl
  · intro n s h
    obtain ⟨hs, hlen⟩ := add_pushed_streams_schedule calls _ n s h hinit
    have hn : s.pushed_streams_length = n := by
      rw [hlen]
      simp [spdylay_stream_init]
    refine ⟨hn, fun h1 => ?_⟩
    rcases hs with ⟨-, h0⟩ | ⟨k, hk, -, hle, hmin⟩
    · omega
    · rw [hn] at hle hmin
      exact ⟨k, hk, hle, fun j hj =>
        Nat.mul_le_mul_left 5 (Nat.pow_le_pow_right (by decide) (hmin j hj))⟩

/-- C19 at a concrete input: of the eight calls of `sample_adds` on a fresh
stream six return 0, and they leave six stream IDs in a block of ten cells. -/
theorem pushed_list_growth_schedule_witness :
    add_pushed_streams (spdylay_stream_init stale_stream 1 0 3 .SPDYLAY_STREAM_OPENED 4096)
      sample_adds = some (6, grown_stream 0) ∧
    (grown_stream 0).pushed_streams_length = 6 ∧
    (1 ≤ 6 → ∃ k, (grown_stream 0).pushed_streams_capacity = 5 * 2 ^ k ∧ 6 ≤ 5 * 2 ^ k ∧
      ∀ j, 6 ≤ 5 * 2 ^ j → 5 * 2 ^ k ≤ 5 * 2 ^ j) :=
  ⟨by decide,
    (pushed_list_growth_schedule stale_stream 1 0 3 .SPDYLAY_STREAM_OPENED 4096
      sample_adds).2.2.2 6 (grown_stream 0) (by decide)⟩

/-- C20. The write into the pushed-stream list is always in bounds:
pushed_streams_length <= pushed_streams_capacity holds after
spdylay_stream_init and is preserved by every stream operation
(spdylay_stream_add_pushed_stream whether it returns 0 or fails,
spdylay_stream_shutdown, spdylay_stream_defer_data,
spdylay_stream_detach_deferred_data); so in every state reached from
spdylay_stream_init the call spdylay_stream_add_pushed_stream returns, and
when it returns 0 the index it wrote, the old pushed_streams_length, is less
than the capacity at the time of the write and lies in the block written. -/
theorem pushed_list_write_in_bounds (stream : spdylay_stream) (stream_id : Int)
    (flags pri : Nat) (initial_state : spdylay_stream_state) (stream_user_data : Nat) :
    (spdylay_stream_init stream stream_id flags pri initial_state
        stream_user_data).pushed_streams_length
      ≤ (spdylay_stream_init stream stream_id flags pri initial_state
        stream_user_data).pushed_streams_capacity ∧
    (∀ t t' : spdylay_stream, ∀ id alloc rv,
      t.pushed_streams_length ≤ t.pushed_streams_capacity →
      spdylay_stream_add_pushed_stream t id alloc = some (rv, t') →
      t'.pushed_streams_length ≤ t'.pushed_streams_capacity) ∧
    (∀ t : spdylay_stream, ∀ flag, t.pushed_streams_length ≤ t.pushed_streams_capacity →
      (spdylay_stream_shutdown t flag).pushed_streams_length
        ≤ (spdylay_stream_shutdown t flag).pushed_streams_capacity) ∧
    (∀ t t' : spdylay_stream, ∀ data, t.pushed_streams_length ≤ t.pushed_streams_capacity →
      spdylay_stream_defer_data t data = some t' →
      t'.pushed_streams_length ≤ t'.pushed_streams_capacity) ∧
    (∀ t : spdylay_stream, t.pushed_streams_length ≤ t.pushed_streams_capacity →
      (spdylay_stream_detach_deferred_data t).pushed_streams_length
        ≤ (spdylay_stream_detach_deferred_data t).pushed_streams_capacity) ∧
    (∀ cs s, exec_calls
        (spdylay_stream_init stream stream_id flags pri initial_state stream_user_data) cs
          = some s →
      s.pushed_streams_length ≤ s.pushed_streams_capacity ∧
      ∀ id alloc,
        (∃ rv s', spdylay_stream_add_pushed_stream s id alloc = some (rv, s')) ∧
        ∀ s', spdylay_stream_add_pushed_stream s id alloc = some (0, s') →
          s.pushed_streams_length < s'.pushed_streams_capacity ∧
          ∃ cells, s'.pushed_streams = some cells ∧
            cells.length = s'.pushed_streams_capacity ∧
            cells[s.pushed_streams_length]? = some id) := by
  refine ⟨Nat.le_refl 0, ?_, fun _ _ h => h, ?_, fun _ h => h, ?_⟩
  · intro t t' id alloc rv hle h
    exact (add_pushed_stream_valid t t' id rv alloc h).1 hle
  · intro t t' data hle h
    exact (exec_call_valid t t' (.defer_data data) h).1 hle
  · intro cs s h
    obtain ⟨hle, hb⟩ := exec_calls_valid cs _ s h (Nat.le_refl 0) rfl
    refine ⟨hle, fun id alloc => ⟨add_pushed_stream_returns s id alloc hle hb, ?_⟩⟩
    intro s' h'
    obtain ⟨hle', hb'⟩ := add_pushed_stream_valid s s' id 0 alloc h'
    have hb2 := hb' hb
    have hle2 := hle' hle
    obtain ⟨cells, capacity, hlt, rfl, -⟩ := add_pushed_stream_ok _ _ _ _ h'
    unfold block_has_capacity at hb2
    simp only [Option.getD_some, List.length_set] at hb2
    simp only at hle2
    refine ⟨by simp only; omega, cells.set s.pushed_streams_length id, rfl, ?_, ?_⟩
    · simpa using hb2
    · simp [hlt]

/-- C20 at a concrete input: after the calls of `sample_calls` on a fresh stream
one ID is stored in a block of five cells, and the next ID goes into cell 1. -/
theorem pushed_list_write_in_bounds_witness :
    (sample_result 0).pushed_streams_length ≤ (sample_result 0).pushed_streams_capacity ∧
    ∀ id alloc,
      (∃ rv s', spdylay_stream_add_pushed_stream (sample_result 0) id alloc = some (rv, s')) ∧
      ∀ s', spdylay_stream_add_pushed_stream (sample_result 0) id alloc = some (0, s') →
        (sample_result 0).pushed_streams_length < s'.pushed_streams_capacity ∧
        ∃ cells, s'.pushed_streams = some cells ∧
          cells.length = s'.pushed_streams_capacity ∧
          cells[(sample_result 0).pushed_streams_length]? = some id :=
  (pushed_list_write_in_bounds stale_stream 1 0 0 .SPDYLAY_STREAM_OPENING 0).2.2.2.2.2
    sample_calls (sample_result 0) (by decide)

/-! ## Claims on detaching deferred DATA and on the independence of the parts -/

/-- C21. The function spdylay_stream_detach_deferred_data empties the deferred
slot whatever it held and is idempotent, and it undoes
spdylay_stream_defer_data: for every stream with an empty deferred slot and
every item, defer_data returns and detach_deferred_data after it yields a
stream equal to the original in every member, after which defer_data accepts a
new item. -/
theorem detach_deferred_data_undoes_defer (stream : spdylay_stream) :
    (spdylay_stream_detach_deferred_data stream).deferred_data = NULL ∧
    spdylay_stream_detach_deferred_data (spdylay_stream_detach_deferred_data stream)
      = spdylay_stream_detach_deferred_data stream ∧
    (∀ data, stream.deferred_data = NULL →
      ∃ s, spdylay_stream_defer_data stream data = some s ∧
        s.deferred_data = data ∧
        spdylay_stream_detach_deferred_data s = stream ∧
        ∀ data', ∃ s', spdylay_stream_defer_data (spdylay_stream_detach_deferred_data s) data'
            = some s' ∧ s'.deferred_data = data') := by
  refine ⟨rfl, rfl, ?_⟩
  intro data h0
  refine ⟨{ stream with deferred_data := data }, if_pos h0, rfl, ?_, ?_⟩
  · simp only [spdylay_stream_detach_deferred_data]
    rw [← h0]
  · intro data'
    exact ⟨_, if_pos rfl, rfl⟩

/-- C21 at concrete inputs: detaching empties the occupied slot of
`sample_result 0`, and deferring item 300 on the full-list stream and
detaching it gives that stream back. -/
theorem detach_deferred_data_undoes_defer_witness :
    (sample_result 0).deferred_data = 200 ∧
    (spdylay_stream_detach_deferred_data (sample_result 0)).deferred_data = NULL ∧
    ∃ s, spdylay_stream_defer_data full_stream 300 = some s ∧
      s.deferred_data = 300 ∧
      spdylay_stream_detach_deferred_data s = full_stream ∧
      ∀ data', ∃ s', spdylay_stream_defer_data (spdylay_stream_detach_deferred_data s) data'
          = some s' ∧ s'.deferred_data = data' :=
  ⟨rfl, (detach_deferred_data_undoes_defer (sample_result 0)).1,
    (detach_deferred_data_undoes_defer full_stream).2.2 300 (by decide)⟩

/-- C22. The three mutable parts of a stream are independent:
spdylay_stream_shutdown changes only the shut flags;
spdylay_stream_add_pushed_stream, whatever it returns, changes only the
pushed-stream list, its length and its capacity; spdylay_stream_defer_data and
spdylay_stream_detach_deferred_data change only the deferred slot.  So
shutting a direction drops neither a deferred item nor a pushed ID, and
deferring or resuming DATA alters neither the half-close state nor the pushed
list. -/
theorem stream_parts_independent (stream : spdylay_stream) :
    (∀ flag, spdylay_stream_shutdown stream flag
      = { stream with shut_flags := (spdylay_stream_shutdown stream flag).shut_flags }) ∧
    (∀ stream_id alloc rv s,
      spdylay_stream_add_pushed_stream stream stream_id alloc = some (rv, s) →
      s = { stream with pushed_streams := s.pushed_streams,
                        pushed_streams_length := s.pushed_streams_length,
                        pushed_streams_capacity := s.pushed_streams_capacity }) ∧
    (∀ data s, spdylay_stream_defer_data stream data = some s →
      s = { stream with deferred_data := s.deferred_data }) ∧
    spdylay_stream_detach_deferred_data stream
      = { stream with
          deferred_data := (spdylay_stream_detach_deferred_data stream).deferred_data } ∧
    (∀ flag, (spdylay_stream_shutdown stream flag).deferred_data = stream.deferred_data ∧
      pushed_list (spdylay_stream_shutdown stream flag) = pushed_list stream) ∧
    (∀ data s, spdylay_stream_defer_data stream data = some s →
      s.shut_flags = stream.shut_flags ∧ pushed_list s = pushed_list stream) ∧
    ((spdylay_stream_detach_deferred_data stream).shut_flags = stream.shut_flags ∧
      pushed_list (spdylay_stream_detach_deferred_data stream) = pushed_list stream) := by
  have hdefer : ∀ data s, spdylay_stream_defer_data stream data = some s →
      s = { stream with deferred_data := data } := by
    intro data s h
    simp only [spdylay_stream_defer_data] at h
    split at h
    · simpa using h.symm
    · exact absurd h (by simp)
  refine ⟨fun _ => rfl, ?_, ?_, rfl, fun _ => ⟨rfl, rfl⟩, ?_, ⟨rfl, rfl⟩⟩
  · intro stream_id alloc rv s h
    rcases add_pushed_stream_ret stream s stream_id rv alloc h with rfl | ⟨-, rfl, -, -⟩
    · obtain ⟨cells, capacity, -, rfl, -⟩ := add_pushed_stream_ok _ _ _ _ h
      rfl
    · rfl
  · intro data s h
    rw [hdefer data s h]
  · intro data s h
    rw [hdefer data s h]
    exact ⟨rfl, rfl⟩

/-- C22 at concrete inputs: on the stream `sample_result 0`, with item 200
deferred and stream 2 pushed, a shutdown keeps both, and an
add_pushed_stream and a detach keep the shut flags 3. -/
theorem stream_parts_independent_witness :
    ((spdylay_stream_shutdown (sample_result 0) .SPDYLAY_SHUT_RD).deferred_data = 200 ∧
      pushed_list (spdylay_stream_shutdown (sample_result 0) .SPDYLAY_SHUT_RD) = some [2]) ∧
    (spdylay_stream_add_pushed_stream (sample_result 0) 4 none
        = some (0, { sample_result 0 with
            pushed_streams := some [2, 4, 0, 0, 0], pushed_streams_length := 2 }) ∧
      ({ sample_result 0 with
          pushed_streams := some [2, 4, 0, 0, 0], pushed_streams_length := 2 }
        : spdylay_stream).shut_flags = 3) ∧
    ((spdylay_stream_detach_deferred_data (sample_result 0)).shut_flags = 3 ∧
      pushed_list (spdylay_stream_detach_deferred_data (sample_result 0)) = some [2]) :=
  ⟨(stream_parts_independent (sample_result 0)).2.2.2.2.1 .SPDYLAY_SHUT_RD,
   ⟨by decide, by decide⟩,
   (stream_parts_independent (sample_result 0)).2.2.2.2.2.2⟩

end Spdylay
